import Mathlib

/-!
# Snake engine (`game/game.go`)

A shallow embedding of the `game` package: the grid, the snake, the food and
the operations `Move`, `Tick`, `Start` and `Walk`, followed by theorems about
them.

Modelling conventions

* `Direction` and `CellType` are `uint8` in the source; they are natural
  numbers here and every theorem that quantifies over them holds for all
  naturals, hence for all `uint8` values.
* Go `int` values (coordinates, score) are unbounded integers: the engine
  changes a coordinate by one and the score by five per call, and wrap-around
  at the ends of the `int` range is not modelled.
* `[BoardSize][BoardSize]CellType` is a function on `Fin BoardSize`; an access
  with an `int` index outside the array is a run-time panic, modelled by
  `Outcome.panic`, which keeps the state reached when the panic was raised
  (the receiver is a pointer, so earlier writes of the call persist).
* `rand.Intn n` is `r % n` for an arbitrary natural `r` supplied by the
  caller, so that it ranges over exactly `[0, n)`.
-/

namespace Snake

/-! ## Data model -/

abbrev Direction := Nat
abbrev CellType := Nat

abbrev BoardSize : Nat := 10

abbrev Undefine : Direction := 0
abbrev Up : Direction := 1
abbrev Right : Direction := 2
abbrev Down : Direction := 3
abbrev Left : Direction := 4

abbrev CellEmpty : CellType := 0
abbrev CellSnake : CellType := 1
abbrev CellFood : CellType := 2

abbrev Grid := Fin BoardSize → Fin BoardSize → CellType

structure Game where
  cells : Grid
  snakeHeadX : Int
  snakeHeadY : Int
  snakeBody : List (Int × Int)
  food : Int × Int
  score : Int
  direction : Direction
  gameOver : Bool
  win : Bool

/-- Run-time panics of the Go runtime and of `math/rand` that the engine can raise. -/
inductive Fault where
  | indexOutOfRange
  | intnArgument
  deriving DecidableEq, Repr

/-- Result of a call on a `*Game`: it returns, or it panics; either way the
state the receiver has at that moment is recorded. -/
inductive Outcome where
  | ret (g : Game)
  | panic (f : Fault) (g : Game)

def Outcome.state : Outcome → Game
  | .ret g => g
  | .panic _ g => g

def Outcome.returned : Outcome → Bool
  | .ret _ => true
  | .panic _ _ => false

/-- Sequencing of two calls on the same receiver: a panic stops the sequence. -/
def Outcome.andThen (o : Outcome) (k : Game → Outcome) : Outcome :=
  match o with
  | .ret g => k g
  | .panic f g => .panic f g

/-! ## Array access -/

/-- Both indices lie inside `[0, BoardSize)`. -/
def InBounds (x y : Int) : Prop :=
  0 ≤ x ∧ x < BoardSize ∧ 0 ≤ y ∧ y < BoardSize

instance (x y : Int) : Decidable (InBounds x y) := by
  unfold InBounds; infer_instance

/-- Read of `cells[x][y]`; `none` is the index-out-of-range panic. -/
def readCell (c : Grid) (x y : Int) : Option CellType :=
  if h : InBounds x y then
    some (c ⟨x.toNat, by unfold InBounds at h; omega⟩ ⟨y.toNat, by unfold InBounds at h; omega⟩)
  else none

/-- Write `cells[x][y] = v`; `none` is the index-out-of-range panic. -/
def writeCell (c : Grid) (x y : Int) (v : CellType) : Option Grid :=
  if InBounds x y then
    some (fun i j => if (i : Int) = x ∧ (j : Int) = y then v else c i j)
  else none

/-- Model of `rand.Intn n` with the raw draw `r`: panics when `n ≤ 0`. -/
def Intn (r : Nat) (n : Int) : Except Fault Int :=
  if n ≤ 0 then .error .intnArgument else .ok ((r : Int) % n)

/-- Index `xs[k]` of a slice with an `int` index. -/
def sliceAt (xs : List (Int × Int)) (k : Int) : Except Fault (Int × Int) :=
  if k < 0 then .error .indexOutOfRange
  else match xs[k.toNat]? with
    | some p => .ok p
    | none => .error .indexOutOfRange

/-- Value of `len(a)` for `a` of type `[2]int`: the array length, a constant. -/
def arrayLen (_ : Int × Int) : Nat := 2

/-! ## Operations -/

def abs (x : Int) : Int :=
  if x < 0 then -x else x

def isOppositeTo (d other : Direction) : Bool :=
  if d = Undefine ∨ other = Undefine then false
  else abs ((d : Int) - (other : Int)) == 2

def NewGame : Game :=
  { cells := fun _ _ => CellEmpty
    snakeHeadX := 0
    snakeHeadY := 0
    snakeBody := []
    food := (0, 0)
    score := 0
    direction := Undefine
    gameOver := false
    win := false }

def Move (g : Game) (dir : Direction) : Game :=
  if !(isOppositeTo g.direction dir) then { g with direction := dir } else g

def IsOver (g : Game) : Bool := g.gameOver

def IsWin (g : Game) : Bool := g.win

def Score (g : Game) : Int := g.score

def Game.Direction (g : Game) : Direction := g.direction

def IsHead (g : Game) (x y : Int) : Bool :=
  g.snakeHeadX == x && g.snakeHeadY == y

def Length (g : Game) : Int := g.snakeBody.length

/-- The calls `fn(x, y, c)` made by `Walk`, in order. -/
def Walk (g : Game) : List (Int × Int × CellType) :=
  (List.finRange BoardSize).flatMap fun (y : Fin BoardSize) =>
    (List.finRange BoardSize).map fun (x : Fin BoardSize) => ((x : Int), (y : Int), g.cells x y)

def moveSnake (g : Game) : Game :=
  match g.direction with
  | 1 => { g with snakeHeadY := g.snakeHeadY - 1 }
  | 2 => { g with snakeHeadX := g.snakeHeadX + 1 }
  | 3 => { g with snakeHeadY := g.snakeHeadY + 1 }
  | 4 => { g with snakeHeadX := g.snakeHeadX - 1 }
  | _ => g

def wallCollision (g : Game) : Bool :=
  g.snakeHeadX < 0 || g.snakeHeadX ≥ BoardSize || g.snakeHeadY < 0 || g.snakeHeadY ≥ BoardSize

def snakeCollision (g : Game) : Except Fault Bool :=
  match readCell g.cells g.snakeHeadX g.snakeHeadY with
  | some c => .ok (c == CellSnake)
  | none => .error .indexOutOfRange

def foodCollision (g : Game) : Bool :=
  g.snakeHeadX == g.food.1 && g.snakeHeadY == g.food.2

def removeSnakeTail (g : Game) : Outcome :=
  match g.snakeBody with
  | [] => .panic .indexOutOfRange g
  | t :: rest =>
    match writeCell g.cells t.1 t.2 CellEmpty with
    | none => .panic .indexOutOfRange g
    | some c => .ret { g with cells := c, snakeBody := rest }

def growSnake (g : Game) : Outcome :=
  let g1 := { g with snakeBody := g.snakeBody ++ [(g.snakeHeadX, g.snakeHeadY)] }
  match writeCell g1.cells g1.snakeHeadX g1.snakeHeadY CellSnake with
  | none => .panic .indexOutOfRange g1
  | some c => .ret { g1 with cells := c }

def freeCells (g : Game) : List (Int × Int) :=
  (List.finRange BoardSize).flatMap fun (i : Fin BoardSize) =>
    ((List.finRange BoardSize).filter fun (j : Fin BoardSize) => g.cells i j == CellEmpty).map
      fun (j : Fin BoardSize) => ((i : Int), (j : Int))

def randomFreeCell (g : Game) (r : Nat) : Except Fault (Int × Int) :=
  let fc := freeCells g
  if fc.length = 0 then .ok (0, 0)
  else
    match Intn r fc.length with
    | .error f => .error f
    | .ok k => sliceAt fc k

def spawnFood (g : Game) (r : Nat) : Outcome :=
  match randomFreeCell g r with
  | .error f => .panic f g
  | .ok cell =>
    if arrayLen cell = 0 then .ret g
    else
      let g1 := { g with food := cell }
      match writeCell g1.cells g1.food.1 g1.food.2 CellFood with
      | none => .panic .indexOutOfRange g1
      | some c => .ret { g1 with cells := c }

def eatFood (g : Game) (r : Nat) : Outcome :=
  spawnFood { g with score := g.score + 5 } r

/-- The call `g.Start()`; `rx`, `ry` and `rf` are the three random draws. -/
def Start (g : Game) (rx ry rf : Nat) : Outcome :=
  match Intn rx BoardSize with
  | .error f => .panic f g
  | .ok x =>
    let g1 := { g with snakeHeadX := x }
    match Intn ry BoardSize with
    | .error f => .panic f g1
    | .ok y =>
      let g2 := { g1 with snakeHeadY := y }
      (growSnake g2).andThen fun g3 => spawnFood g3 rf

/-- The call `g.Tick()`; `r` is the random draw used if food is re-placed. -/
def Tick (g : Game) (r : Nat) : Outcome :=
  if g.direction = 0 then .ret g
  else
    let g1 := moveSnake g
    match (if wallCollision g1 then .ok true else snakeCollision g1) with
    | .error f => .panic f g1
    | .ok true => .ret { g1 with gameOver := true }
    | .ok false =>
      (growSnake g1).andThen fun g2 =>
        if (freeCells g2).length = 0 then .ret { g2 with win := true }
        else if foodCollision g2 then eatFood g2 r
        else removeSnakeTail g2


/-! ## Vocabulary of the specification -/

/-- One of the five named direction constants. -/
def IsDirection (d : Direction) : Prop :=
  d = Undefine ∨ d = Up ∨ d = Right ∨ d = Down ∨ d = Left

instance (d : Direction) : Decidable (IsDirection d) := by
  unfold IsDirection; infer_instance

/-- The two opposite pairs of the specification: Up/Down and Left/Right. -/
def OppositePair (a b : Direction) : Prop :=
  (a = Up ∧ b = Down) ∨ (a = Down ∧ b = Up) ∨ (a = Left ∧ b = Right) ∨ (a = Right ∧ b = Left)

instance (a b : Direction) : Decidable (OppositePair a b) := by
  unfold OppositePair; infer_instance

/-- The opposite of a moving direction, as the specification names it. -/
def opposite (d : Direction) : Direction :=
  match d with
  | 1 => Down
  | 2 => Left
  | 3 => Up
  | 4 => Right
  | _ => d

/-- One of the four moving directions. -/
def IsMoving (d : Direction) : Prop :=
  d = Up ∨ d = Right ∨ d = Down ∨ d = Left

instance (d : Direction) : Decidable (IsMoving d) := by
  unfold IsMoving; infer_instance

/-- Consistent state: the body segments are distinct and in bounds, the food
coordinate is in bounds, the grid holds SnakeBody exactly on the body segments,
Food exactly on the food coordinate and Empty elsewhere, and the head is the
last body segment. -/
def Consistent (g : Game) : Prop :=
  g.snakeBody.Nodup ∧
  (∀ p ∈ g.snakeBody, InBounds p.1 p.2) ∧
  InBounds g.food.1 g.food.2 ∧
  (∀ i j : Fin BoardSize, g.cells i j = CellSnake ↔ ((i : Int), (j : Int)) ∈ g.snakeBody) ∧
  (∀ i j : Fin BoardSize, g.cells i j = CellFood ↔ ((i : Int), (j : Int)) = g.food) ∧
  (∀ i j : Fin BoardSize,
    g.cells i j = CellSnake ∨ g.cells i j = CellFood ∨ g.cells i j = CellEmpty) ∧
  g.snakeBody.getLast? = some (g.snakeHeadX, g.snakeHeadY)

instance (g : Game) : Decidable (Consistent g) := by
  unfold Consistent; infer_instance

/-- Some cell other than `(x, y)` is Empty: an Empty cell remains once `(x, y)`
has been marked SnakeBody. -/
def EmptyElsewhere (g : Game) (x y : Int) : Prop :=
  ∃ i j : Fin BoardSize, g.cells i j = CellEmpty ∧ ¬ ((i : Int) = x ∧ (j : Int) = y)

instance (g : Game) (x y : Int) : Decidable (EmptyElsewhere g x y) := by
  unfold EmptyElsewhere; infer_instance

/-! ## Concrete states -/

/-- Scenario of the specification: head at (5,5), direction Right, food at (6,5). -/
def scenario : Game :=
  { cells := fun i j =>
      if i.val = 5 ∧ j.val = 5 then CellSnake
      else if i.val = 6 ∧ j.val = 5 then CellFood
      else CellEmpty
    snakeHeadX := 5
    snakeHeadY := 5
    snakeBody := [(5, 5)]
    food := (6, 5)
    score := 0
    direction := Right
    gameOver := false
    win := false }

/-- A snake of four segments curled in a square, about to step on its own tail. -/
def loopGame : Game :=
  { cells := fun i j =>
      if (i.val = 5 ∨ i.val = 6) ∧ (j.val = 5 ∨ j.val = 6) then CellSnake
      else if i.val = 0 ∧ j.val = 0 then CellFood
      else CellEmpty
    snakeHeadX := 6
    snakeHeadY := 5
    snakeBody := [(5, 5), (5, 6), (6, 6), (6, 5)]
    food := (0, 0)
    score := 15
    direction := Left
    gameOver := false
    win := false }

/-- All hundred cells along a path that runs up and down the columns:
(0,0) ... (0,9), (1,9) ... (1,0), (2,0) ... and ends with (9,2), (9,1), (9,0). -/
def zigzag : List (Int × Int) :=
  (List.range 10).flatMap fun (x : Nat) =>
    (List.range 10).map fun (k : Nat) =>
      ((x : Int), if x % 2 = 0 then (k : Int) else 9 - (k : Int))

/-- The snake fills the first 99 cells of `zigzag`, its head is at (9,1), the
food is on the last cell (9,0) and the direction is Up. -/
def foodLast : Game :=
  { cells := fun i j => if i.val = 9 ∧ j.val = 0 then CellFood else CellSnake
    snakeHeadX := 9
    snakeHeadY := 1
    snakeBody := zigzag.take 99
    food := (9, 0)
    score := 490
    direction := Up
    gameOver := false
    win := false }

/-- The snake fills the first 98 cells of `zigzag`, its head is at (9,2), cell
(9,1) is Empty, the food is on (9,0) and the direction is Up. -/
def emptyLast : Game :=
  { cells := fun i j =>
      if i.val = 9 ∧ j.val = 0 then CellFood
      else if i.val = 9 ∧ j.val = 1 then CellEmpty
      else CellSnake
    snakeHeadX := 9
    snakeHeadY := 2
    snakeBody := zigzag.take 98
    food := (9, 0)
    score := 485
    direction := Up
    gameOver := false
    win := false }

/-- State reached inside `Tick` once the head has been moved and added to the
body and the grid: the value `growSnake (moveSnake g)` returns when the moved
head is in bounds. -/
def grown (g : Game) : Game :=
  { moveSnake g with
    snakeBody := (moveSnake g).snakeBody ++ [((moveSnake g).snakeHeadX, (moveSnake g).snakeHeadY)]
    cells := fun i j =>
      if (i : Int) = (moveSnake g).snakeHeadX ∧ (j : Int) = (moveSnake g).snakeHeadY then CellSnake
      else (moveSnake g).cells i j }

/-! ## Invariants and counts -/

/-- Grid consistency in the words of the specification: every body segment's
cell is SnakeBody, the food coordinate's cell is Food, every other cell is
Empty. -/
def GridConsistent (g : Game) : Prop :=
  (∀ p ∈ g.snakeBody, readCell g.cells p.1 p.2 = some CellSnake) ∧
  readCell g.cells g.food.1 g.food.2 = some CellFood ∧
  (∀ i j : Fin BoardSize, ((i : Int), (j : Int)) ∉ g.snakeBody →
    ((i : Int), (j : Int)) ≠ g.food → g.cells i j = CellEmpty)

instance (g : Game) : Decidable (GridConsistent g) := by
  unfold GridConsistent; infer_instance

/-- The body segments are distinct, in bounds, and their cells are exactly the
SnakeBody cells of the grid; every cell holds one of the three cell types. -/
def BodyOnGrid (g : Game) : Prop :=
  g.snakeBody.Nodup ∧
  (∀ p ∈ g.snakeBody, InBounds p.1 p.2) ∧
  (∀ i j : Fin BoardSize, g.cells i j = CellSnake ↔ ((i : Int), (j : Int)) ∈ g.snakeBody) ∧
  (∀ i j : Fin BoardSize,
    g.cells i j = CellSnake ∨ g.cells i j = CellFood ∨ g.cells i j = CellEmpty)

/-- The food coordinate is in bounds and its cell is the only Food cell. -/
def FoodOnGrid (g : Game) : Prop :=
  InBounds g.food.1 g.food.2 ∧
  (∀ i j : Fin BoardSize, g.cells i j = CellFood ↔ ((i : Int), (j : Int)) = g.food)

/-- Every cell of the grid is SnakeBody. -/
def Full (g : Game) : Prop :=
  ∀ i j : Fin BoardSize, g.cells i j = CellSnake

instance (g : Game) : Decidable (Full g) := by
  unfold Full; infer_instance

/-- Number of grid cells that hold the cell type `c`. -/
def countCells (g : Game) (c : CellType) : Nat :=
  (Finset.univ.filter fun p : Fin BoardSize × Fin BoardSize => g.cells p.1 p.2 = c).card

/-- States reached from `NewGame().Start()` by any sequence of `Move` and `Tick`
calls, for any random draws. -/
inductive Reachable : Game → Prop where
  | start (rx ry rf : Nat) : Reachable (Start NewGame rx ry rf).state
  | move {g : Game} (d : Direction) : Reachable g → Reachable (Move g d)
  | tick {g : Game} (r : Nat) : Reachable g → Reachable (Tick g r).state

/-- A fresh game after `Start` has drawn the head and added it to the body and
the grid, before the food is placed. -/
def startGrown (rx ry : Nat) : Game :=
  { NewGame with
    snakeHeadX := (rx : Int) % 10
    snakeHeadY := (ry : Int) % 10
    snakeBody := [((rx : Int) % 10, (ry : Int) % 10)]
    cells := fun i j =>
      if (i : Int) = (rx : Int) % 10 ∧ (j : Int) = (ry : Int) % 10 then CellSnake else CellEmpty }

/-- Coordinates of the calls of `Walk`, in call order. -/
def walkCoords (g : Game) : List (Int × Int) :=
  (Walk g).map fun c => (c.1, c.2.1)

/-- The visitor `fn` run by `Walk`, with the loops of the source: `y` outside,
`x` inside; `s` is whatever state the visitor keeps. The game is returned as
`Walk` leaves it. -/
def WalkRun {σ : Type} (g : Game) (fn : Int → Int → CellType → σ → σ) (s : σ) : σ × Game :=
  ((List.finRange BoardSize).foldl
    (fun (acc : σ) (y : Fin BoardSize) =>
      (List.finRange BoardSize).foldl
        (fun (acc : σ) (x : Fin BoardSize) => fn (x : Int) (y : Int) (g.cells x y) acc) acc)
    s, g)

/-- Order with `x` in the outer loop and `y` in the inner loop:
(0,0), (0,1), ..., (0,9), (1,0), ... -/
def xOuterOrder : List (Int × Int) :=
  (List.range BoardSize).flatMap fun (x : Nat) =>
    (List.range BoardSize).map fun (y : Nat) => ((x : Int), (y : Int))

/-- Order with `y` in the outer loop and `x` in the inner loop:
(0,0), (1,0), ..., (9,0), (0,1), ... -/
def yOuterOrder : List (Int × Int) :=
  (List.range BoardSize).flatMap fun (y : Nat) =>
    (List.range BoardSize).map fun (x : Nat) => ((x : Int), (y : Int))

/-! ## More concrete states -/

/-- A state whose body lists the cell (5,5) twice. -/
def dupGame : Game :=
  { cells := fun i j =>
      if i.val = 5 ∧ j.val = 5 then CellSnake
      else if i.val = 0 ∧ j.val = 0 then CellFood
      else CellEmpty
    snakeHeadX := 5
    snakeHeadY := 5
    snakeBody := [(5, 5), (5, 5)]
    food := (0, 0)
    score := 5
    direction := Right
    gameOver := false
    win := false }

/-- The snake fills all hundred cells along `zigzag`: the state `Tick` leaves
after `foodLast`. -/
def fullBoard : Game :=
  { cells := fun _ _ => CellSnake
    snakeHeadX := 9
    snakeHeadY := 0
    snakeBody := zigzag
    food := (9, 0)
    score := 490
    direction := Up
    gameOver := false
    win := true }

/-! # Theorems -/

/-! ## Direction changes -/

theorem isOppositeTo_iff_pair (a b : Direction) (ha : IsDirection a) (hb : IsDirection b) :
    isOppositeTo a b = true ↔ OppositePair a b := by
  unfold IsDirection at ha hb
  rcases ha with rfl | rfl | rfl | rfl | rfl <;> rcases hb with rfl | rfl | rfl | rfl | rfl <;> decide

theorem isOppositeTo_undefine_left (b : Direction) : isOppositeTo Undefine b = false := by
  simp [isOppositeTo]

theorem isOppositeTo_self (a : Direction) : isOppositeTo a a = false := by
  simp [isOppositeTo, abs]

theorem Move_direction (g : Game) (d : Direction) :
    (Move g d).direction = if isOppositeTo g.direction d = true then g.direction else d := by
  unfold Move
  cases h : isOppositeTo g.direction d <;> simp

theorem Move_frame (g : Game) (d : Direction) :
    Move g d = { g with direction := (Move g d).direction } := by
  unfold Move
  cases h : isOppositeTo g.direction d <;> simp

/-- C1: `Move d` sets the direction to `d` unless `d` is the exact opposite of
the current direction (Up/Down, Left/Right), in which case the direction is
kept; every other field of the state is unchanged; and from `Undefine` every
`d` is accepted. -/
theorem C1_move_direction (g : Game) (d : Direction) :
    (IsDirection g.direction → IsDirection d →
      (Move g d).direction = if OppositePair g.direction d then g.direction else d) ∧
    (g.direction = Undefine → (Move g d).direction = d) ∧
    (Move g d).cells = g.cells ∧
    (Move g d).snakeHeadX = g.snakeHeadX ∧
    (Move g d).snakeHeadY = g.snakeHeadY ∧
    (Move g d).snakeBody = g.snakeBody ∧
    (Move g d).food = g.food ∧
    (Move g d).score = g.score ∧
    (Move g d).gameOver = g.gameOver ∧
    (Move g d).win = g.win := by
  refine ⟨?_, ?_, ?_⟩
  · intro hg hd
    rw [Move_direction]
    by_cases h : OppositePair g.direction d
    · simp [h, (isOppositeTo_iff_pair _ _ hg hd).2 h]
    · have : ¬ isOppositeTo g.direction d = true := fun hh =>
        h ((isOppositeTo_iff_pair _ _ hg hd).1 hh)
      simp [h, this]
  · intro hu
    rw [Move_direction, hu, isOppositeTo_undefine_left]
    simp
  · rw [Move_frame g d]
    simp

theorem C1_move_direction_witness :
    IsDirection ({ NewGame with direction := Up } : Game).direction ∧ IsDirection Down ∧
      (Move { NewGame with direction := Up } Down).direction = Up :=
  ⟨by decide, by decide,
    (C1_move_direction { NewGame with direction := Up } Down).1 (by decide) (by decide)⟩

/-- C2 as stated fails: with current direction Down, `Move Up` is rejected, the
following `Move (opposite Up)` is accepted, and the direction is Down, not Up. -/
theorem C2_counterexample :
    IsMoving Up ∧
      (Move (Move { NewGame with direction := Down } Up) (opposite Up)).direction ≠ Up := by
  decide

/-- C2 (amended): when the current direction is a named direction other than
the opposite of `d`, so that `Move d` is accepted, `Move d` followed by `Move (opposite d)` leaves the
direction equal to `d`, for each of Up, Right, Down, Left. -/
theorem C2_move_then_opposite (g : Game) (d : Direction) (hd : IsMoving d)
    (hg : IsDirection g.direction) (hne : g.direction ≠ opposite d) :
    (Move (Move g d) (opposite d)).direction = d := by
  have hacc : isOppositeTo g.direction d = false := by
    generalize g.direction = c at hg hne
    unfold IsMoving at hd
    unfold IsDirection at hg
    rcases hd with rfl | rfl | rfl | rfl <;> rcases hg with rfl | rfl | rfl | rfl | rfl <;>
      first
        | rfl
        | exact absurd rfl hne
  have h1 : (Move g d).direction = d := by rw [Move_direction]; simp [hacc]
  rw [Move_direction, h1]
  unfold IsMoving at hd
  rcases hd with rfl | rfl | rfl | rfl <;> decide

theorem C2_move_then_opposite_witness :
    IsMoving Right ∧ IsDirection NewGame.direction ∧ NewGame.direction ≠ opposite Right ∧
      (Move (Move NewGame Right) (opposite Right)).direction = Right :=
  ⟨by decide, by decide, by decide,
    C2_move_then_opposite NewGame Right (by decide) (by decide) (by decide)⟩


/-! ## Frame lemmas for the steps of `Tick` -/

theorem moveSnake_frame (g : Game) :
    moveSnake g =
      { g with snakeHeadX := (moveSnake g).snakeHeadX, snakeHeadY := (moveSnake g).snakeHeadY } := by
  unfold moveSnake
  split <;> rfl

theorem growSnake_head (g : Game) :
    (growSnake g).state.snakeHeadX = g.snakeHeadX ∧
      (growSnake g).state.snakeHeadY = g.snakeHeadY := by
  unfold growSnake
  dsimp only
  split <;> exact ⟨rfl, rfl⟩

theorem spawnFood_head (g : Game) (r : Nat) :
    (spawnFood g r).state.snakeHeadX = g.snakeHeadX ∧
      (spawnFood g r).state.snakeHeadY = g.snakeHeadY := by
  unfold spawnFood
  split
  · exact ⟨rfl, rfl⟩
  · split
    · exact ⟨rfl, rfl⟩
    · dsimp only
      split <;> exact ⟨rfl, rfl⟩

theorem removeSnakeTail_head (g : Game) :
    (removeSnakeTail g).state.snakeHeadX = g.snakeHeadX ∧
      (removeSnakeTail g).state.snakeHeadY = g.snakeHeadY := by
  unfold removeSnakeTail
  split
  · exact ⟨rfl, rfl⟩
  · split <;> exact ⟨rfl, rfl⟩

theorem andThen_head (o : Outcome) (k : Game → Outcome) (x y : Int)
    (ho : o.state.snakeHeadX = x ∧ o.state.snakeHeadY = y)
    (hk : ∀ g, g.snakeHeadX = x ∧ g.snakeHeadY = y →
      (k g).state.snakeHeadX = x ∧ (k g).state.snakeHeadY = y) :
    (o.andThen k).state.snakeHeadX = x ∧ (o.andThen k).state.snakeHeadY = y := by
  cases o with
  | ret g => exact hk g ho
  | panic f g => exact ho

/-- After `Tick` with a direction set, the head is where `moveSnake` put it,
whether `Tick` returned normally, flagged a collision, or panicked. -/
theorem Tick_head (g : Game) (r : Nat) (hd : g.direction ≠ 0) :
    (Tick g r).state.snakeHeadX = (moveSnake g).snakeHeadX ∧
      (Tick g r).state.snakeHeadY = (moveSnake g).snakeHeadY := by
  unfold Tick
  rw [if_neg hd]
  dsimp only
  split
  · exact ⟨rfl, rfl⟩
  · exact ⟨rfl, rfl⟩
  · apply andThen_head
    · exact growSnake_head _
    · intro g2 hg2
      split
      · exact hg2
      · split
        · have := spawnFood_head { g2 with score := g2.score + 5 } r
          unfold eatFood
          exact ⟨this.1.trans hg2.1, this.2.trans hg2.2⟩
        · have := removeSnakeTail_head g2
          exact ⟨this.1.trans hg2.1, this.2.trans hg2.2⟩

/-! ## Tick: no-op, head movement, collisions -/

/-- C3: with direction `Undefine`, `Tick` returns and leaves the whole state
(grid, head, body, food, score, direction, gameOver, win) as it was. -/
theorem C3_tick_undefine_noop (g : Game) (r : Nat) (hd : g.direction = Undefine) :
    Tick g r = .ret g := by
  unfold Tick
  rw [if_pos hd]

theorem C3_tick_undefine_noop_witness :
    NewGame.direction = Undefine ∧ Tick NewGame 7 = .ret NewGame :=
  ⟨rfl, C3_tick_undefine_noop NewGame 7 rfl⟩

/-- C4: with direction Up, Right, Down or Left, the head after `Tick` is one
cell further in that direction (Up: `(x, y-1)`, Down: `(x, y+1)`, Left:
`(x-1, y)`, Right: `(x+1, y)`), whatever else `Tick` does; and after an accepted
`Move Up` followed by `Move Down`, `Tick` moves the head up. -/
theorem C4_tick_moves_head (g : Game) (r : Nat) :
    (g.direction = Up →
      (Tick g r).state.snakeHeadX = g.snakeHeadX ∧
        (Tick g r).state.snakeHeadY = g.snakeHeadY - 1) ∧
    (g.direction = Down →
      (Tick g r).state.snakeHeadX = g.snakeHeadX ∧
        (Tick g r).state.snakeHeadY = g.snakeHeadY + 1) ∧
    (g.direction = Left →
      (Tick g r).state.snakeHeadX = g.snakeHeadX - 1 ∧
        (Tick g r).state.snakeHeadY = g.snakeHeadY) ∧
    (g.direction = Right →
      (Tick g r).state.snakeHeadX = g.snakeHeadX + 1 ∧
        (Tick g r).state.snakeHeadY = g.snakeHeadY) ∧
    (isOppositeTo g.direction Up = false →
      (Move (Move g Up) Down).direction = Up ∧
        (Tick (Move (Move g Up) Down) r).state.snakeHeadX = g.snakeHeadX ∧
        (Tick (Move (Move g Up) Down) r).state.snakeHeadY = g.snakeHeadY - 1) := by
  have key : ∀ g : Game, g.direction = Up →
      (Tick g r).state.snakeHeadX = g.snakeHeadX ∧
        (Tick g r).state.snakeHeadY = g.snakeHeadY - 1 := by
    intro g h
    have := Tick_head g r (by rw [h]; decide)
    rw [this.1, this.2]
    simp [moveSnake, h]
  refine ⟨key g, ?_, ?_, ?_, ?_⟩
  · intro h
    have := Tick_head g r (by rw [h]; decide)
    rw [this.1, this.2]
    simp [moveSnake, h]
  · intro h
    have := Tick_head g r (by rw [h]; decide)
    rw [this.1, this.2]
    simp [moveSnake, h]
  · intro h
    have := Tick_head g r (by rw [h]; decide)
    rw [this.1, this.2]
    simp [moveSnake, h]
  · intro h
    have h1 : (Move g Up).direction = Up := by rw [Move_direction]; simp [h]
    have h2 : (Move (Move g Up) Down).direction = Up := by
      rw [Move_direction, h1]; decide
    have hx : (Move (Move g Up) Down).snakeHeadX = g.snakeHeadX := by
      rw [Move_frame (Move g Up) Down, Move_frame g Up]
    have hy : (Move (Move g Up) Down).snakeHeadY = g.snakeHeadY := by
      rw [Move_frame (Move g Up) Down, Move_frame g Up]
    have := key _ h2
    exact ⟨h2, by rw [this.1, hx], by rw [this.2, hy]⟩


theorem C4_tick_moves_head_witness :
    ({ NewGame with direction := Up, snakeHeadX := 5, snakeHeadY := 5 } : Game).direction = Up ∧
      (Tick { NewGame with direction := Up, snakeHeadX := 5, snakeHeadY := 5 } 0).state.snakeHeadX
        = 5 ∧
      (Tick { NewGame with direction := Up, snakeHeadX := 5, snakeHeadY := 5 } 0).state.snakeHeadY
        = 5 - 1 :=
  ⟨rfl, (C4_tick_moves_head { NewGame with direction := Up, snakeHeadX := 5, snakeHeadY := 5 } 0).1
    rfl⟩

theorem wallCollision_iff (g : Game) :
    wallCollision g = true ↔ ¬ InBounds g.snakeHeadX g.snakeHeadY := by
  unfold wallCollision InBounds
  simp only [Bool.or_eq_true, decide_eq_true_eq]
  omega

theorem moveSnake_cells (g : Game) : (moveSnake g).cells = g.cells := by
  rw [moveSnake_frame]

/-- C5: when the moved head is outside `[0, N)` on either axis, `Tick` returns
with gameOver set and nothing else changed but the head coordinate: grid, body,
food, score, direction and win are as before. -/
theorem C5_wall_collision (g : Game) (r : Nat) (hd : g.direction ≠ Undefine)
    (hw : ¬ InBounds (moveSnake g).snakeHeadX (moveSnake g).snakeHeadY) :
    Tick g r = .ret { g with snakeHeadX := (moveSnake g).snakeHeadX,
                             snakeHeadY := (moveSnake g).snakeHeadY,
                             gameOver := true } ∧
      IsOver (Tick g r).state = true ∧
      (Tick g r).state.cells = g.cells ∧
      (Tick g r).state.snakeBody = g.snakeBody ∧
      (Tick g r).state.food = g.food ∧
      (Tick g r).state.score = g.score ∧
      (Tick g r).state.direction = g.direction ∧
      (Tick g r).state.win = g.win := by
  have h : Tick g r = .ret { moveSnake g with gameOver := true } := by
    unfold Tick
    rw [if_neg hd]
    dsimp only
    rw [if_pos ((wallCollision_iff _).2 hw)]
  rw [h, moveSnake_frame g]
  exact ⟨rfl, rfl, rfl, rfl, rfl, rfl, rfl, rfl⟩

theorem C5_wall_collision_witness :
    ({ NewGame with direction := Up } : Game).direction ≠ Undefine ∧
      ¬ InBounds (moveSnake { NewGame with direction := Up }).snakeHeadX
          (moveSnake { NewGame with direction := Up }).snakeHeadY ∧
      IsOver (Tick { NewGame with direction := Up } 0).state = true :=
  ⟨by decide, by decide,
    (C5_wall_collision { NewGame with direction := Up } 0 (by decide) (by decide)).2.1⟩

/-- C6: when the moved head is in bounds and its grid cell holds SnakeBody
(the tail cell included, which has not been vacated), `Tick` returns with
gameOver set and grid, body, food, score and win unchanged. -/
theorem C6_self_collision (g : Game) (r : Nat) (hd : g.direction ≠ Undefine)
    (hc : readCell g.cells (moveSnake g).snakeHeadX (moveSnake g).snakeHeadY = some CellSnake) :
    Tick g r = .ret { g with snakeHeadX := (moveSnake g).snakeHeadX,
                             snakeHeadY := (moveSnake g).snakeHeadY,
                             gameOver := true } ∧
      IsOver (Tick g r).state = true ∧
      (Tick g r).state.cells = g.cells ∧
      (Tick g r).state.snakeBody = g.snakeBody ∧
      (Tick g r).state.food = g.food ∧
      (Tick g r).state.score = g.score ∧
      (Tick g r).state.win = g.win := by
  have h : Tick g r = .ret { moveSnake g with gameOver := true } := by
    unfold Tick
    rw [if_neg hd]
    dsimp only
    have hs : snakeCollision (moveSnake g) = .ok true := by
      unfold snakeCollision
      rw [moveSnake_cells, hc]
      rfl
    rw [hs]
    have : (if wallCollision (moveSnake g) = true then (Except.ok true : Except Fault Bool)
        else Except.ok true) = Except.ok true := by split <;> rfl
    rw [this]
  rw [h, moveSnake_frame g]
  exact ⟨rfl, rfl, rfl, rfl, rfl, rfl, rfl⟩

theorem C6_self_collision_witness :
    loopGame.direction ≠ Undefine ∧
      readCell loopGame.cells (moveSnake loopGame).snakeHeadX (moveSnake loopGame).snakeHeadY
        = some CellSnake ∧
      loopGame.snakeBody.head? = some ((moveSnake loopGame).snakeHeadX,
        (moveSnake loopGame).snakeHeadY) ∧
      IsOver (Tick loopGame 0).state = true :=
  ⟨by decide, by decide, by decide, (C6_self_collision loopGame 0 (by decide) (by decide)).2.1⟩


/-! ## Array access lemmas -/

theorem exists_fin_of_inBounds {x y : Int} (h : InBounds x y) :
    ∃ i j : Fin BoardSize, (i : Int) = x ∧ (j : Int) = y := by
  unfold InBounds at h
  refine ⟨⟨x.toNat, by omega⟩, ⟨y.toNat, by omega⟩, ?_, ?_⟩
  · show ((x.toNat : Nat) : Int) = x
    omega
  · show ((y.toNat : Nat) : Int) = y
    omega

theorem inBounds_coe (i j : Fin BoardSize) : InBounds (i : Int) (j : Int) := by
  unfold InBounds
  have hi := i.isLt
  have hj := j.isLt
  omega

theorem readCell_coe (c : Grid) (i j : Fin BoardSize) :
    readCell c (i : Int) (j : Int) = some (c i j) := by
  unfold readCell
  rw [dif_pos (inBounds_coe i j)]
  simp

theorem readCell_isSome {c : Grid} {x y : Int} {v : CellType} (h : readCell c x y = some v) :
    InBounds x y := by
  unfold readCell at h
  by_contra hb
  rw [dif_neg hb] at h
  cases h

theorem coe_inj {i i' : Fin BoardSize} (h : (i : Int) = (i' : Int)) : i = i' := by
  apply Fin.ext
  exact_mod_cast h

theorem writeCell_inBounds (c : Grid) {x y : Int} (v : CellType) (h : InBounds x y) :
    writeCell c x y v =
      some (fun (i j : Fin BoardSize) => if (i : Int) = x ∧ (j : Int) = y then v else c i j) := by
  unfold writeCell
  rw [if_pos h]

/-! ## Steps of `Tick` on in-bounds inputs -/

theorem growSnake_ret (g : Game) (h : InBounds g.snakeHeadX g.snakeHeadY) :
    growSnake g = .ret { g with
      snakeBody := g.snakeBody ++ [(g.snakeHeadX, g.snakeHeadY)]
      cells := fun i j =>
        if (i : Int) = g.snakeHeadX ∧ (j : Int) = g.snakeHeadY then CellSnake else g.cells i j } := by
  unfold growSnake
  dsimp only
  rw [writeCell_inBounds _ _ h]

theorem removeSnakeTail_ret (g : Game) (t : Int × Int) (rest : List (Int × Int))
    (hb : g.snakeBody = t :: rest) (h : InBounds t.1 t.2) :
    removeSnakeTail g = .ret { g with
      cells := fun i j => if (i : Int) = t.1 ∧ (j : Int) = t.2 then CellEmpty else g.cells i j
      snakeBody := rest } := by
  unfold removeSnakeTail
  rw [hb]
  dsimp only
  rw [writeCell_inBounds _ _ h]

theorem mem_freeCells (g : Game) (p : Int × Int) :
    p ∈ freeCells g ↔ ∃ i j : Fin BoardSize, g.cells i j = CellEmpty ∧ p = ((i : Int), (j : Int)) := by
  unfold freeCells
  constructor
  · intro h
    rw [List.mem_flatMap] at h
    obtain ⟨i, _, hi⟩ := h
    rw [List.mem_map] at hi
    obtain ⟨j, hj, rfl⟩ := hi
    rw [List.mem_filter] at hj
    exact ⟨i, j, by simpa using hj.2, rfl⟩
  · rintro ⟨i, j, hij, rfl⟩
    rw [List.mem_flatMap]
    exact ⟨i, List.mem_finRange i,
      List.mem_map.2 ⟨j, List.mem_filter.2 ⟨List.mem_finRange j, by simpa using hij⟩, rfl⟩⟩

theorem randomFreeCell_ok (g : Game) (r : Nat) (h : freeCells g ≠ []) :
    ∃ cell, cell ∈ freeCells g ∧ randomFreeCell g r = .ok cell := by
  have hlen : 0 < (freeCells g).length := List.length_pos.2 h
  unfold randomFreeCell
  dsimp only
  rw [if_neg (by omega)]
  unfold Intn
  rw [if_neg (by omega)]
  dsimp only
  have h0 : (0 : Int) ≤ (r : Int) % ((freeCells g).length : Int) :=
    Int.emod_nonneg _ (by omega)
  have h1 : (r : Int) % ((freeCells g).length : Int) < ((freeCells g).length : Int) :=
    Int.emod_lt_of_pos _ (by omega)
  have hk : ((r : Int) % ((freeCells g).length : Int)).toNat < (freeCells g).length := by omega
  unfold sliceAt
  rw [if_neg (by omega), List.getElem?_eq_getElem hk]
  exact ⟨_, List.getElem_mem _, rfl⟩

theorem spawnFood_ret (g : Game) (r : Nat) (h : freeCells g ≠ []) :
    ∃ i j : Fin BoardSize, g.cells i j = CellEmpty ∧
      spawnFood g r = .ret { g with
        food := ((i : Int), (j : Int))
        cells := fun a b => if (a : Int) = i ∧ (b : Int) = j then CellFood else g.cells a b } := by
  obtain ⟨cell, hmem, hok⟩ := randomFreeCell_ok g r h
  obtain ⟨i, j, hij, rfl⟩ := (mem_freeCells g _).1 hmem
  refine ⟨i, j, hij, ?_⟩
  unfold spawnFood
  rw [hok]
  dsimp only
  have hlen : ¬ arrayLen ((i : Int), (j : Int)) = 0 := by unfold arrayLen; decide
  rw [if_neg hlen]
  rw [writeCell_inBounds _ _ (inBounds_coe i j)]


/-! ## The grown state -/

theorem grown_cells (g : Game) (i j : Fin BoardSize) :
    (grown g).cells i j =
      if (i : Int) = (moveSnake g).snakeHeadX ∧ (j : Int) = (moveSnake g).snakeHeadY then CellSnake
      else g.cells i j := by
  unfold grown
  rw [moveSnake_cells]

theorem grown_body (g : Game) :
    (grown g).snakeBody =
      g.snakeBody ++ [((moveSnake g).snakeHeadX, (moveSnake g).snakeHeadY)] := by
  unfold grown
  rw [moveSnake_frame g]

theorem grown_frame (g : Game) :
    (grown g).snakeHeadX = (moveSnake g).snakeHeadX ∧
      (grown g).snakeHeadY = (moveSnake g).snakeHeadY ∧
      (grown g).food = g.food ∧ (grown g).score = g.score ∧
      (grown g).direction = g.direction ∧ (grown g).gameOver = g.gameOver ∧
      (grown g).win = g.win := by
  unfold grown
  rw [moveSnake_frame g]
  exact ⟨rfl, rfl, rfl, rfl, rfl, rfl, rfl⟩

theorem freeCells_grown_ne_nil (g : Game)
    (h : EmptyElsewhere g (moveSnake g).snakeHeadX (moveSnake g).snakeHeadY) :
    freeCells (grown g) ≠ [] := by
  obtain ⟨i, j, hij, hne⟩ := h
  have hmem : (((i : Int), (j : Int)) : Int × Int) ∈ freeCells (grown g) := by
    rw [mem_freeCells]
    refine ⟨i, j, ?_, rfl⟩
    rw [grown_cells, if_neg hne]
    exact hij
  intro hnil
  rw [hnil] at hmem
  cases hmem

theorem freeCells_grown_eq_nil (g : Game)
    (h : ¬ EmptyElsewhere g (moveSnake g).snakeHeadX (moveSnake g).snakeHeadY) :
    freeCells (grown g) = [] := by
  rw [List.eq_nil_iff_forall_not_mem]
  intro p hp
  obtain ⟨i, j, hij, -⟩ := (mem_freeCells _ _).1 hp
  rw [grown_cells] at hij
  by_cases hc : (i : Int) = (moveSnake g).snakeHeadX ∧ (j : Int) = (moveSnake g).snakeHeadY
  · rw [if_pos hc] at hij
    exact absurd hij (by decide)
  · rw [if_neg hc] at hij
    exact h ⟨i, j, hij, hc⟩

/-- When the moved head is in bounds and not on a SnakeBody cell, `Tick` adds the
head and then takes one of its three last branches on the grown state. -/
theorem Tick_step (g : Game) (r : Nat) (hd : g.direction ≠ Undefine)
    (hb : InBounds (moveSnake g).snakeHeadX (moveSnake g).snakeHeadY)
    (hs : readCell g.cells (moveSnake g).snakeHeadX (moveSnake g).snakeHeadY ≠ some CellSnake) :
    growSnake (moveSnake g) = .ret (grown g) ∧
    Tick g r =
      if (freeCells (grown g)).length = 0 then .ret { grown g with win := true }
      else if foodCollision (grown g) = true then eatFood (grown g) r
      else removeSnakeTail (grown g) := by
  have hg : growSnake (moveSnake g) = .ret (grown g) := growSnake_ret (moveSnake g) hb
  refine ⟨hg, ?_⟩
  have hw : ¬ wallCollision (moveSnake g) = true := by
    rw [wallCollision_iff]
    exact fun h => h hb
  have hsc : snakeCollision (moveSnake g) = .ok false := by
    unfold snakeCollision
    rw [moveSnake_cells]
    obtain ⟨i, j, hi, hj⟩ := exists_fin_of_inBounds hb
    rw [← hi, ← hj, readCell_coe] at hs ⊢
    have hne : g.cells i j ≠ CellSnake := fun h => hs (by rw [h])
    simp [hne]
  unfold Tick
  rw [if_neg hd]
  dsimp only
  rw [if_neg hw, hsc]
  dsimp only
  rw [hg]
  rfl


/-! ## The three last branches of `Tick` on a consistent state -/

theorem Tick_win (g : Game) (r : Nat) (hd : g.direction ≠ Undefine)
    (hb : InBounds (moveSnake g).snakeHeadX (moveSnake g).snakeHeadY)
    (hs : readCell g.cells (moveSnake g).snakeHeadX (moveSnake g).snakeHeadY ≠ some CellSnake)
    (hne : ¬ EmptyElsewhere g (moveSnake g).snakeHeadX (moveSnake g).snakeHeadY) :
    Tick g r = .ret { grown g with win := true } := by
  rw [(Tick_step g r hd hb hs).2, freeCells_grown_eq_nil g hne]
  rfl

theorem Tick_eat (g : Game) (r : Nat) (hc : Consistent g) (hd : g.direction ≠ Undefine)
    (hf : ((moveSnake g).snakeHeadX, (moveSnake g).snakeHeadY) = g.food)
    (he : EmptyElsewhere g (moveSnake g).snakeHeadX (moveSnake g).snakeHeadY) :
    ∃ i j : Fin BoardSize, (grown g).cells i j = CellEmpty ∧
      Tick g r = .ret { grown g with
        score := g.score + 5
        food := ((i : Int), (j : Int))
        cells := fun a b =>
          if (a : Int) = i ∧ (b : Int) = j then CellFood else (grown g).cells a b } := by
  obtain ⟨-, -, hfin, -, hfd, -, -⟩ := hc
  have hx : (moveSnake g).snakeHeadX = g.food.1 := congrArg Prod.fst hf
  have hy : (moveSnake g).snakeHeadY = g.food.2 := congrArg Prod.snd hf
  have hb : InBounds (moveSnake g).snakeHeadX (moveSnake g).snakeHeadY := by
    rw [hx, hy]; exact hfin
  have hs : readCell g.cells (moveSnake g).snakeHeadX (moveSnake g).snakeHeadY
      ≠ some CellSnake := by
    obtain ⟨i, j, hi, hj⟩ := exists_fin_of_inBounds hb
    have hfood : g.cells i j = CellFood := (hfd i j).2 (by rw [hi, hj, hf])
    rw [← hi, ← hj, readCell_coe, hfood]
    decide
  have hfree : freeCells (grown g) ≠ [] := freeCells_grown_ne_nil g he
  have hlen : ¬ (freeCells (grown g)).length = 0 := fun h => hfree (List.length_eq_zero.1 h)
  have hfc : foodCollision (grown g) = true := by
    unfold foodCollision
    rw [(grown_frame g).1, (grown_frame g).2.1, (grown_frame g).2.2.1, hx, hy]
    simp
  rw [(Tick_step g r hd hb hs).2, if_neg hlen, if_pos hfc]
  unfold eatFood
  obtain ⟨i, j, hij, hsp⟩ := spawnFood_ret { grown g with score := (grown g).score + 5 } r hfree
  refine ⟨i, j, hij, ?_⟩
  rw [hsp, (grown_frame g).2.2.2.1]

theorem Tick_plain (g : Game) (r : Nat) (hc : Consistent g) (hd : g.direction ≠ Undefine)
    (hb : InBounds (moveSnake g).snakeHeadX (moveSnake g).snakeHeadY)
    (hs : readCell g.cells (moveSnake g).snakeHeadX (moveSnake g).snakeHeadY ≠ some CellSnake)
    (hnf : ((moveSnake g).snakeHeadX, (moveSnake g).snakeHeadY) ≠ g.food)
    (he : EmptyElsewhere g (moveSnake g).snakeHeadX (moveSnake g).snakeHeadY) :
    ∃ t rest, g.snakeBody = t :: rest ∧ InBounds t.1 t.2 ∧
      Tick g r = .ret { grown g with
        cells := fun a b =>
          if (a : Int) = t.1 ∧ (b : Int) = t.2 then CellEmpty else (grown g).cells a b
        snakeBody := rest ++ [((moveSnake g).snakeHeadX, (moveSnake g).snakeHeadY)] } := by
  obtain ⟨-, hin, -, -, -, -, hlast⟩ := hc
  have hfree : freeCells (grown g) ≠ [] := freeCells_grown_ne_nil g he
  have hlen : ¬ (freeCells (grown g)).length = 0 := fun h => hfree (List.length_eq_zero.1 h)
  have hfc : ¬ foodCollision (grown g) = true := by
    unfold foodCollision
    rw [(grown_frame g).1, (grown_frame g).2.1, (grown_frame g).2.2.1]
    intro h
    simp only [Bool.and_eq_true, beq_iff_eq] at h
    exact hnf (Prod.ext h.1 h.2)
  cases hbody : g.snakeBody with
  | nil => rw [hbody] at hlast; cases hlast
  | cons t rest =>
    have ht : InBounds t.1 t.2 := hin t (by rw [hbody]; exact List.mem_cons_self _ _)
    refine ⟨t, rest, rfl, ht, ?_⟩
    rw [(Tick_step g r hd hb hs).2, if_neg hlen, if_neg hfc]
    have hgb : (grown g).snakeBody =
        t :: (rest ++ [((moveSnake g).snakeHeadX, (moveSnake g).snakeHeadY)]) := by
      rw [grown_body, hbody]; rfl
    rw [removeSnakeTail_ret (grown g) t _ hgb ht]


/-- In a consistent state the tail is an in-bounds SnakeBody cell, and it still
is one after the new head has been added. -/
theorem tail_cell (g : Game) (hc : Consistent g) :
    ∃ (t : Int × Int) (rest : List (Int × Int)) (ti tj : Fin BoardSize),
      g.snakeBody = t :: rest ∧ (ti : Int) = t.1 ∧ (tj : Int) = t.2 ∧
      g.cells ti tj = CellSnake ∧ (grown g).cells ti tj = CellSnake := by
  obtain ⟨-, hin, -, hsn, -, -, hlast⟩ := hc
  cases hbody : g.snakeBody with
  | nil => rw [hbody] at hlast; cases hlast
  | cons t rest =>
    have hmem : t ∈ g.snakeBody := by rw [hbody]; exact List.mem_cons_self _ _
    obtain ⟨ti, tj, hti, htj⟩ := exists_fin_of_inBounds (hin t hmem)
    have hcell : g.cells ti tj = CellSnake := (hsn ti tj).2 (by rw [hti, htj]; exact hmem)
    refine ⟨t, rest, ti, tj, rfl, hti, htj, hcell, ?_⟩
    rw [grown_cells]
    split
    · rfl
    · exact hcell

/-! ## Eating, relocation, plain moves, winning -/

set_option maxRecDepth 100000 in
/-- C7 as stated fails: the snake fills 99 cells, the food is on the last cell
and the head steps on it. The state is consistent and the head moves onto the
food, but `Tick` sets win and returns before the food branch: the score stays
490 instead of becoming 495. -/
theorem C7_counterexample :
    Consistent foodLast ∧ foodLast.direction = Up ∧
      (foodLast.snakeHeadX, foodLast.snakeHeadY) = (9, 1) ∧ foodLast.food = (9, 0) ∧
      ((moveSnake foodLast).snakeHeadX, (moveSnake foodLast).snakeHeadY) = foodLast.food ∧
      (Tick foodLast 0).returned = true ∧
      Score foodLast = 490 ∧
      Score (Tick foodLast 0).state = 490 ∧
      Score (Tick foodLast 0).state ≠ Score foodLast + 5 ∧
      IsWin (Tick foodLast 0).state = true := by
  decide

/-- C7 (amended): in a consistent state with a direction set where the head
moves onto the food coordinate and some cell is still Empty after the new head
has been added, `Tick` returns with the head on the old food coordinate, the
score increased by exactly 5, the length increased by 1, and the old tail cell
still SnakeBody. -/
theorem C7_eat_food (g : Game) (r : Nat) (hc : Consistent g) (hd : g.direction ≠ Undefine)
    (hf : ((moveSnake g).snakeHeadX, (moveSnake g).snakeHeadY) = g.food)
    (he : EmptyElsewhere g (moveSnake g).snakeHeadX (moveSnake g).snakeHeadY) :
    ∃ g' t, Tick g r = .ret g' ∧
      (g'.snakeHeadX, g'.snakeHeadY) = g.food ∧
      Score g' = Score g + 5 ∧
      Length g' = Length g + 1 ∧
      g.snakeBody.head? = some t ∧
      readCell g'.cells t.1 t.2 = some CellSnake := by
  obtain ⟨i, j, hij, hT⟩ := Tick_eat g r hc hd hf he
  obtain ⟨t, rest, ti, tj, hbody, hti, htj, -, hgc⟩ := tail_cell g hc
  refine ⟨_, t, hT, ?_, rfl, ?_, ?_, ?_⟩
  · show ((grown g).snakeHeadX, (grown g).snakeHeadY) = g.food
    rw [(grown_frame g).1, (grown_frame g).2.1, hf]
  · show (((grown g).snakeBody.length : Nat) : Int) = ((g.snakeBody.length : Nat) : Int) + 1
    rw [grown_body]
    simp
  · rw [hbody]; rfl
  · rw [← hti, ← htj, readCell_coe]
    show some (if (ti : Int) = i ∧ (tj : Int) = j then CellFood else (grown g).cells ti tj)
      = some CellSnake
    have hne : ¬ ((ti : Int) = i ∧ (tj : Int) = j) := by
      rintro ⟨h1, h2⟩
      rw [coe_inj h1, coe_inj h2, hij] at hgc
      exact absurd hgc (by decide)
    rw [if_neg hne, hgc]

theorem C7_eat_food_witness :
    Consistent scenario ∧ scenario.direction ≠ Undefine ∧
      ((moveSnake scenario).snakeHeadX, (moveSnake scenario).snakeHeadY) = scenario.food ∧
      EmptyElsewhere scenario (moveSnake scenario).snakeHeadX (moveSnake scenario).snakeHeadY ∧
      ∃ g', Tick scenario 3 = .ret g' ∧ (g'.snakeHeadX, g'.snakeHeadY) = (6, 5) ∧
        Score g' = 5 ∧ Length g' = 2 ∧ readCell g'.cells 5 5 = some CellSnake := by
  refine ⟨by decide, by decide, by decide, by decide, ?_⟩
  obtain ⟨g', t, hT, hh, hsc, hl, ht, hcell⟩ :=
    C7_eat_food scenario 3 (by decide) (by decide) (by decide) (by decide)
  have ht5 : t = (5, 5) := by
    have : scenario.snakeBody.head? = some (5, 5) := rfl
    rw [this] at ht
    exact (Option.some.inj ht).symm
  subst ht5
  exact ⟨g', hT, hh, hsc, hl, hcell⟩

/-- C8: in a consistent state where `Tick` moves the head onto the food and some
cell is still Empty after the new head has been added, for every random draw
`Tick` returns with the food on a cell that was Empty at that moment, which is
neither a body segment nor the head; the food coordinate is that cell and it is
the only grid cell that holds Food. -/
theorem C8_food_relocation (g : Game) (r : Nat) (hc : Consistent g)
    (hd : g.direction ≠ Undefine)
    (hf : ((moveSnake g).snakeHeadX, (moveSnake g).snakeHeadY) = g.food)
    (he : EmptyElsewhere g (moveSnake g).snakeHeadX (moveSnake g).snakeHeadY) :
    ∃ (g2 g' : Game) (i j : Fin BoardSize),
      growSnake (moveSnake g) = .ret g2 ∧ g2.cells i j = CellEmpty ∧
      Tick g r = .ret g' ∧
      g'.food = ((i : Int), (j : Int)) ∧
      ((i : Int), (j : Int)) ∉ g'.snakeBody ∧
      IsHead g' i j = false ∧
      g'.cells i j = CellFood ∧
      (∀ a b : Fin BoardSize, g'.cells a b = CellFood ↔ (a = i ∧ b = j)) := by
  obtain ⟨i, j, hij, hT⟩ := Tick_eat g r hc hd hf he
  have hc' := hc
  obtain ⟨-, -, hfin, hsn, hfd, -, -⟩ := hc
  have hx : (moveSnake g).snakeHeadX = g.food.1 := congrArg Prod.fst hf
  have hy : (moveSnake g).snakeHeadY = g.food.2 := congrArg Prod.snd hf
  have hb : InBounds (moveSnake g).snakeHeadX (moveSnake g).snakeHeadY := by
    rw [hx, hy]; exact hfin
  have hg2 : growSnake (moveSnake g) = .ret (grown g) := growSnake_ret (moveSnake g) hb
  -- the chosen cell is not the new head and was Empty before the move
  have hnh : ¬ ((i : Int) = (moveSnake g).snakeHeadX ∧ (j : Int) = (moveSnake g).snakeHeadY) := by
    intro h
    rw [grown_cells, if_pos h] at hij
    exact absurd hij (by decide)
  have hge : g.cells i j = CellEmpty := by
    rw [grown_cells, if_neg hnh] at hij
    exact hij
  refine ⟨grown g, _, i, j, hg2, hij, hT, rfl, ?_, ?_, ?_, ?_⟩
  · show ((i : Int), (j : Int)) ∉ (grown g).snakeBody
    rw [grown_body, List.mem_append, List.mem_singleton]
    rintro (hm | hm)
    · have := (hsn i j).2 hm
      rw [hge] at this
      exact absurd this (by decide)
    · exact hnh ⟨congrArg Prod.fst hm, congrArg Prod.snd hm⟩
  · show ((grown g).snakeHeadX == (i : Int) && (grown g).snakeHeadY == (j : Int)) = false
    rw [(grown_frame g).1, (grown_frame g).2.1]
    rw [Bool.and_eq_false_iff]
    by_cases h1 : (moveSnake g).snakeHeadX = (i : Int)
    · right
      rw [beq_eq_false_iff_ne]
      exact fun h2 => hnh ⟨h1.symm, h2.symm⟩
    · left
      rw [beq_eq_false_iff_ne]
      exact h1
  · show (if (i : Int) = i ∧ (j : Int) = j then CellFood else (grown g).cells i j) = CellFood
    rw [if_pos ⟨rfl, rfl⟩]
  · intro a b
    show (if (a : Int) = i ∧ (b : Int) = j then CellFood else (grown g).cells a b) = CellFood ↔ _
    by_cases hab : (a : Int) = i ∧ (b : Int) = j
    · rw [if_pos hab]
      exact ⟨fun _ => ⟨coe_inj hab.1, coe_inj hab.2⟩, fun _ => rfl⟩
    · rw [if_neg hab, grown_cells]
      constructor
      · intro h
        exfalso
        by_cases hm : (a : Int) = (moveSnake g).snakeHeadX ∧ (b : Int) = (moveSnake g).snakeHeadY
        · rw [if_pos hm] at h
          exact absurd h (by decide)
        · rw [if_neg hm] at h
          have := (hfd a b).1 h
          rw [← hf] at this
          exact hm ⟨congrArg Prod.fst this, congrArg Prod.snd this⟩
      · rintro ⟨rfl, rfl⟩
        exact absurd ⟨rfl, rfl⟩ hab

theorem C8_food_relocation_witness :
    Consistent scenario ∧ scenario.direction ≠ Undefine ∧
      ((moveSnake scenario).snakeHeadX, (moveSnake scenario).snakeHeadY) = scenario.food ∧
      EmptyElsewhere scenario (moveSnake scenario).snakeHeadX (moveSnake scenario).snakeHeadY ∧
      ∃ (g2 g' : Game) (i j : Fin BoardSize),
        growSnake (moveSnake scenario) = .ret g2 ∧ g2.cells i j = CellEmpty ∧
        Tick scenario 42 = .ret g' ∧
        g'.food = ((i : Int), (j : Int)) ∧
        ((i : Int), (j : Int)) ∉ g'.snakeBody ∧
        IsHead g' i j = false ∧
        g'.cells i j = CellFood ∧
        (∀ a b : Fin BoardSize, g'.cells a b = CellFood ↔ (a = i ∧ b = j)) :=
  ⟨by decide, by decide, by decide, by decide,
    C8_food_relocation scenario 42 (by decide) (by decide) (by decide) (by decide)⟩


set_option maxRecDepth 100000 in
/-- C9 as stated fails: the snake fills 98 cells, the food is on (9,0) and the
head at (9,2) steps up onto (9,1), the only Empty cell, which is neither
SnakeBody nor the food coordinate. No Empty cell is left, so `Tick` sets win and
returns without removing the tail: the length goes from 98 to 99 and the old
tail cell (0,0) is still SnakeBody and still the first body segment. -/
theorem C9_counterexample :
    Consistent emptyLast ∧ emptyLast.direction = Up ∧
      (emptyLast.snakeHeadX, emptyLast.snakeHeadY) = (9, 2) ∧ emptyLast.food = (9, 0) ∧
      ((moveSnake emptyLast).snakeHeadX, (moveSnake emptyLast).snakeHeadY) = (9, 1) ∧
      readCell emptyLast.cells 9 1 = some CellEmpty ∧
      emptyLast.snakeBody.head? = some (0, 0) ∧
      (Tick emptyLast 0).returned = true ∧
      Length emptyLast = 98 ∧
      Length (Tick emptyLast 0).state = 99 ∧
      readCell (Tick emptyLast 0).state.cells 0 0 = some CellSnake ∧
      (Tick emptyLast 0).state.snakeBody.head? = some (0, 0) ∧
      IsWin (Tick emptyLast 0).state = true := by
  decide

/-- C9 (amended): in a consistent state with a direction set where the head
moves onto an in-bounds cell that is neither SnakeBody nor the food coordinate
and some cell is still Empty after the new head has been added, `Tick` returns
with the length unchanged, the previous tail cell Empty and dropped from the
body, and the new head cell SnakeBody and the newest body segment. -/
theorem C9_non_food_move (g : Game) (r : Nat) (hc : Consistent g)
    (hd : g.direction ≠ Undefine)
    (hb : InBounds (moveSnake g).snakeHeadX (moveSnake g).snakeHeadY)
    (hs : readCell g.cells (moveSnake g).snakeHeadX (moveSnake g).snakeHeadY ≠ some CellSnake)
    (hnf : ((moveSnake g).snakeHeadX, (moveSnake g).snakeHeadY) ≠ g.food)
    (he : EmptyElsewhere g (moveSnake g).snakeHeadX (moveSnake g).snakeHeadY) :
    ∃ g' t rest, Tick g r = .ret g' ∧ g.snakeBody = t :: rest ∧
      Length g' = Length g ∧
      readCell g'.cells t.1 t.2 = some CellEmpty ∧
      g'.snakeBody = rest ++ [((moveSnake g).snakeHeadX, (moveSnake g).snakeHeadY)] ∧
      t ∉ g'.snakeBody ∧
      readCell g'.cells (moveSnake g).snakeHeadX (moveSnake g).snakeHeadY = some CellSnake ∧
      g'.snakeBody.getLast? = some ((moveSnake g).snakeHeadX, (moveSnake g).snakeHeadY) := by
  obtain ⟨t, rest, hbody, ht, hT⟩ := Tick_plain g r hc hd hb hs hnf he
  obtain ⟨hnd, -, -, hsn, -, -, -⟩ := hc
  obtain ⟨ti, tj, hti, htj⟩ := exists_fin_of_inBounds ht
  obtain ⟨mi, mj, hmi, hmj⟩ := exists_fin_of_inBounds hb
  have htcell : g.cells ti tj = CellSnake :=
    (hsn ti tj).2 (by rw [hti, htj, hbody]; exact List.mem_cons_self _ _)
  -- the tail is not the cell the head moves onto
  have htm : t ≠ ((moveSnake g).snakeHeadX, (moveSnake g).snakeHeadY) := by
    intro h
    apply hs
    have h1 : (moveSnake g).snakeHeadX = (ti : Int) := by rw [hti, h]
    have h2 : (moveSnake g).snakeHeadY = (tj : Int) := by rw [htj, h]
    rw [h1, h2, readCell_coe, htcell]
  refine ⟨_, t, rest, hT, hbody, ?_, ?_, rfl, ?_, ?_, ?_⟩
  · show (((rest ++ [((moveSnake g).snakeHeadX, (moveSnake g).snakeHeadY)]).length : Nat) : Int)
      = ((g.snakeBody.length : Nat) : Int)
    rw [hbody]
    simp
  · rw [← hti, ← htj, readCell_coe]
    show some (if (ti : Int) = (ti : Int) ∧ (tj : Int) = (tj : Int) then CellEmpty
      else (grown g).cells ti tj) = some CellEmpty
    rw [if_pos ⟨rfl, rfl⟩]
  · show t ∉ rest ++ [((moveSnake g).snakeHeadX, (moveSnake g).snakeHeadY)]
    rw [List.mem_append, List.mem_singleton]
    rintro (hm | hm)
    · rw [hbody] at hnd
      exact (List.nodup_cons.1 hnd).1 hm
    · exact htm hm
  · rw [← hmi, ← hmj, readCell_coe]
    show some (if (mi : Int) = t.1 ∧ (mj : Int) = t.2 then CellEmpty else (grown g).cells mi mj)
      = some CellSnake
    have hne : ¬ ((mi : Int) = t.1 ∧ (mj : Int) = t.2) := by
      rintro ⟨h1, h2⟩
      exact htm (Prod.ext (by rw [← h1, hmi]) (by rw [← h2, hmj]))
    rw [if_neg hne, grown_cells, if_pos ⟨hmi, hmj⟩]
  · show (rest ++ [((moveSnake g).snakeHeadX, (moveSnake g).snakeHeadY)]).getLast? = _
    simp

theorem C9_non_food_move_witness :
    Consistent { scenario with direction := Down } ∧
      ({ scenario with direction := Down } : Game).direction ≠ Undefine ∧
      ((moveSnake { scenario with direction := Down }).snakeHeadX,
        (moveSnake { scenario with direction := Down }).snakeHeadY) = (5, 6) ∧
      ∃ g' t rest, Tick { scenario with direction := Down } 0 = .ret g' ∧
        ({ scenario with direction := Down } : Game).snakeBody = t :: rest ∧
        Length g' = Length { scenario with direction := Down } ∧
        readCell g'.cells t.1 t.2 = some CellEmpty ∧
        g'.snakeBody = rest ++ [((moveSnake { scenario with direction := Down }).snakeHeadX,
          (moveSnake { scenario with direction := Down }).snakeHeadY)] ∧
        t ∉ g'.snakeBody ∧
        readCell g'.cells (moveSnake { scenario with direction := Down }).snakeHeadX
          (moveSnake { scenario with direction := Down }).snakeHeadY = some CellSnake ∧
        g'.snakeBody.getLast? = some ((moveSnake { scenario with direction := Down }).snakeHeadX,
          (moveSnake { scenario with direction := Down }).snakeHeadY) :=
  ⟨by decide, by decide, by decide,
    C9_non_food_move { scenario with direction := Down } 0 (by decide) (by decide) (by decide)
      (by decide) (by decide) (by decide)⟩

/-- C10: in a consistent state with a direction set whose `Tick` is neither a
wall nor a self collision: if no Empty cell remains once the new head has been
added (in particular when every cell has become SnakeBody), `Tick` returns with
win set, the length one more than before and the old tail cell still SnakeBody;
if an Empty cell remains, `Tick` returns with the win flag unchanged. -/
theorem C10_win_condition (g : Game) (r : Nat) (hc : Consistent g)
    (hd : g.direction ≠ Undefine)
    (hb : InBounds (moveSnake g).snakeHeadX (moveSnake g).snakeHeadY)
    (hs : readCell g.cells (moveSnake g).snakeHeadX (moveSnake g).snakeHeadY ≠ some CellSnake) :
    (¬ EmptyElsewhere g (moveSnake g).snakeHeadX (moveSnake g).snakeHeadY →
      ∃ g' t, Tick g r = .ret g' ∧ IsWin g' = true ∧ Length g' = Length g + 1 ∧
        g.snakeBody.head? = some t ∧ g'.snakeBody.head? = some t ∧
        readCell g'.cells t.1 t.2 = some CellSnake) ∧
    ((∀ i j : Fin BoardSize,
        ¬ ((i : Int) = (moveSnake g).snakeHeadX ∧ (j : Int) = (moveSnake g).snakeHeadY) →
          g.cells i j = CellSnake) →
      ∃ g', Tick g r = .ret g' ∧ IsWin g' = true ∧
        ∀ i j : Fin BoardSize, g'.cells i j = CellSnake) ∧
    (EmptyElsewhere g (moveSnake g).snakeHeadX (moveSnake g).snakeHeadY →
      ∃ g', Tick g r = .ret g' ∧ IsWin g' = IsWin g) := by
  refine ⟨?_, ?_, ?_⟩
  · intro hne
    obtain ⟨t, rest, ti, tj, hbody, hti, htj, -, hgc⟩ := tail_cell g hc
    refine ⟨_, t, Tick_win g r hd hb hs hne, rfl, ?_, ?_, ?_, ?_⟩
    · show (((grown g).snakeBody.length : Nat) : Int) = ((g.snakeBody.length : Nat) : Int) + 1
      rw [grown_body]
      simp
    · rw [hbody]; rfl
    · show (grown g).snakeBody.head? = some t
      rw [grown_body, hbody]; rfl
    · rw [← hti, ← htj, readCell_coe]
      show some ((grown g).cells ti tj) = some CellSnake
      rw [hgc]
  · intro hall
    have hne : ¬ EmptyElsewhere g (moveSnake g).snakeHeadX (moveSnake g).snakeHeadY := by
      rintro ⟨i, j, hij, hnm⟩
      have := hall i j hnm
      rw [hij] at this
      exact absurd this (by decide)
    refine ⟨_, Tick_win g r hd hb hs hne, rfl, ?_⟩
    intro i j
    show (grown g).cells i j = CellSnake
    rw [grown_cells]
    split
    · rfl
    · next hnm => exact hall i j hnm
  · intro he
    by_cases hf : ((moveSnake g).snakeHeadX, (moveSnake g).snakeHeadY) = g.food
    · obtain ⟨i, j, -, hT⟩ := Tick_eat g r hc hd hf he
      exact ⟨_, hT, (grown_frame g).2.2.2.2.2.2⟩
    · obtain ⟨t, rest, -, -, hT⟩ := Tick_plain g r hc hd hb hs hf he
      exact ⟨_, hT, (grown_frame g).2.2.2.2.2.2⟩

set_option maxRecDepth 100000 in
theorem C10_win_condition_witness :
    Consistent foodLast ∧ foodLast.direction ≠ Undefine ∧
      InBounds (moveSnake foodLast).snakeHeadX (moveSnake foodLast).snakeHeadY ∧
      readCell foodLast.cells (moveSnake foodLast).snakeHeadX (moveSnake foodLast).snakeHeadY
        ≠ some CellSnake ∧
      ¬ EmptyElsewhere foodLast (moveSnake foodLast).snakeHeadX (moveSnake foodLast).snakeHeadY ∧
      ∃ g' t, Tick foodLast 0 = .ret g' ∧ IsWin g' = true ∧
        Length g' = Length foodLast + 1 ∧
        foodLast.snakeBody.head? = some t ∧ g'.snakeBody.head? = some t ∧
        readCell g'.cells t.1 t.2 = some CellSnake :=
  ⟨by decide, by decide, by decide, by decide, by decide,
    (C10_win_condition foodLast 0 (by decide) (by decide) (by decide) (by decide)).1 (by decide)⟩

/-! ## Shape of `Tick` -/

theorem Tick_collide (g : Game) (r : Nat) (hd : g.direction ≠ Undefine)
    (hc : ¬ InBounds (moveSnake g).snakeHeadX (moveSnake g).snakeHeadY ∨
      readCell g.cells (moveSnake g).snakeHeadX (moveSnake g).snakeHeadY = some CellSnake) :
    Tick g r = .ret { moveSnake g with gameOver := true } := by
  unfold Tick
  rw [if_neg hd]
  dsimp only
  rcases hc with hw | hs
  · rw [if_pos ((wallCollision_iff _).2 hw)]
  · have hsc : snakeCollision (moveSnake g) = .ok true := by
      unfold snakeCollision
      rw [moveSnake_cells, hs]
      rfl
    rw [hsc]
    have : (if wallCollision (moveSnake g) = true then (Except.ok true : Except Fault Bool)
        else Except.ok true) = Except.ok true := by split <;> rfl
    rw [this]

/-- Every `Tick` is a no-op, a collision, or a step on the grown state. -/
theorem Tick_cases (g : Game) (r : Nat) :
    (g.direction = Undefine ∧ Tick g r = .ret g) ∨
    (g.direction ≠ Undefine ∧
      (¬ InBounds (moveSnake g).snakeHeadX (moveSnake g).snakeHeadY ∨
        readCell g.cells (moveSnake g).snakeHeadX (moveSnake g).snakeHeadY = some CellSnake) ∧
      Tick g r = .ret { moveSnake g with gameOver := true }) ∨
    (g.direction ≠ Undefine ∧
      InBounds (moveSnake g).snakeHeadX (moveSnake g).snakeHeadY ∧
      readCell g.cells (moveSnake g).snakeHeadX (moveSnake g).snakeHeadY ≠ some CellSnake ∧
      Tick g r =
        if (freeCells (grown g)).length = 0 then .ret { grown g with win := true }
        else if foodCollision (grown g) = true then eatFood (grown g) r
        else removeSnakeTail (grown g)) := by
  by_cases hd : g.direction = Undefine
  · left
    refine ⟨hd, ?_⟩
    unfold Tick
    rw [if_pos hd]
  · right
    by_cases hc : ¬ InBounds (moveSnake g).snakeHeadX (moveSnake g).snakeHeadY ∨
        readCell g.cells (moveSnake g).snakeHeadX (moveSnake g).snakeHeadY = some CellSnake
    · left
      exact ⟨hd, hc, Tick_collide g r hd hc⟩
    · right
      have hb : InBounds (moveSnake g).snakeHeadX (moveSnake g).snakeHeadY := by
        by_contra h
        exact hc (Or.inl h)
      have hs : readCell g.cells (moveSnake g).snakeHeadX (moveSnake g).snakeHeadY
          ≠ some CellSnake := fun h => hc (Or.inr h)
      exact ⟨hd, hb, hs, (Tick_step g r hd hb hs).2⟩

/-! ## Field frames of the steps, on every outcome -/

theorem growSnake_fields (g : Game) :
    (growSnake g).state.snakeBody = g.snakeBody ++ [(g.snakeHeadX, g.snakeHeadY)] ∧
      (growSnake g).state.food = g.food ∧
      (growSnake g).state.score = g.score ∧
      (growSnake g).state.direction = g.direction ∧
      (growSnake g).state.gameOver = g.gameOver ∧
      (growSnake g).state.win = g.win := by
  unfold growSnake
  dsimp only
  split <;> exact ⟨rfl, rfl, rfl, rfl, rfl, rfl⟩

theorem spawnFood_fields (g : Game) (r : Nat) :
    (spawnFood g r).state.snakeBody = g.snakeBody ∧
      (spawnFood g r).state.score = g.score ∧
      (spawnFood g r).state.direction = g.direction ∧
      (spawnFood g r).state.gameOver = g.gameOver ∧
      (spawnFood g r).state.win = g.win := by
  unfold spawnFood
  split
  · exact ⟨rfl, rfl, rfl, rfl, rfl⟩
  · split
    · exact ⟨rfl, rfl, rfl, rfl, rfl⟩
    · dsimp only
      split <;> exact ⟨rfl, rfl, rfl, rfl, rfl⟩

theorem removeSnakeTail_fields (g : Game) :
    (removeSnakeTail g).state.food = g.food ∧
      (removeSnakeTail g).state.score = g.score ∧
      (removeSnakeTail g).state.direction = g.direction ∧
      (removeSnakeTail g).state.gameOver = g.gameOver ∧
      (removeSnakeTail g).state.win = g.win := by
  unfold removeSnakeTail
  split
  · exact ⟨rfl, rfl, rfl, rfl, rfl⟩
  · split <;> exact ⟨rfl, rfl, rfl, rfl, rfl⟩

theorem andThen_state (P : Game → Prop) (o : Outcome) (k : Game → Outcome)
    (ho : P o.state) (hk : ∀ g, P g → P (k g).state) : P (o.andThen k).state := by
  cases o with
  | ret g => exact hk g ho
  | panic f g => exact ho

theorem Intn_boardSize (r : Nat) : Intn r BoardSize = .ok ((r : Int) % 10) := by
  unfold Intn
  rw [if_neg (by decide)]
  rfl

theorem Start_eq (g : Game) (rx ry rf : Nat) :
    Start g rx ry rf =
      (growSnake { g with snakeHeadX := (rx : Int) % 10, snakeHeadY := (ry : Int) % 10 }).andThen
        fun g3 => spawnFood g3 rf := by
  unfold Start
  rw [Intn_boardSize, Intn_boardSize]

/-! ## Opposite directions -/

/-- C18: `isOppositeTo d o` holds iff neither is `Undefine` and the ordinals
differ by exactly 2; for the five named directions that is iff `{d, o}` is
Up/Down or Left/Right; the relation is symmetric, irreflexive, and false when
either argument is `Undefine`. -/
theorem C18_opposite_rule (d o : Direction) :
    (isOppositeTo d o = true ↔
      d ≠ Undefine ∧ o ≠ Undefine ∧ Int.natAbs ((d : Int) - (o : Int)) = 2) ∧
    (IsDirection d → IsDirection o → (isOppositeTo d o = true ↔ OppositePair d o)) ∧
    isOppositeTo d o = isOppositeTo o d ∧
    isOppositeTo d d = false ∧
    isOppositeTo Undefine o = false ∧
    isOppositeTo d Undefine = false := by
  have key : ∀ a b : Direction, isOppositeTo a b = true ↔
      a ≠ Undefine ∧ b ≠ Undefine ∧ Int.natAbs ((a : Int) - (b : Int)) = 2 := by
    intro a b
    unfold isOppositeTo abs
    by_cases h : a = Undefine ∨ b = Undefine
    · rw [if_pos h]
      constructor
      · intro hf; cases hf
      · rintro ⟨ha, hb, -⟩
        rcases h with h | h
        · exact absurd h ha
        · exact absurd h hb
    · rw [if_neg h]
      have ha : a ≠ Undefine := fun e => h (Or.inl e)
      have hb : b ≠ Undefine := fun e => h (Or.inr e)
      rw [beq_iff_eq]
      constructor
      · intro hv
        refine ⟨ha, hb, ?_⟩
        split at hv <;> omega
      · rintro ⟨-, -, hv⟩
        split <;> omega
  refine ⟨key d o, isOppositeTo_iff_pair d o, ?_, isOppositeTo_self d,
    isOppositeTo_undefine_left o, ?_⟩
  · rw [Bool.eq_iff_iff, key d o, key o d]
    constructor
    · rintro ⟨h1, h2, h3⟩
      exact ⟨h2, h1, by omega⟩
    · rintro ⟨h1, h2, h3⟩
      exact ⟨h2, h1, by omega⟩
  · simp [isOppositeTo]

theorem C18_opposite_rule_witness :
    IsDirection Left ∧ IsDirection Right ∧
      (isOppositeTo Left Right = true ↔ OppositePair Left Right) ∧
      isOppositeTo Left Right = true :=
  ⟨by decide, by decide, (C18_opposite_rule Left Right).2.1 (by decide) (by decide), by decide⟩

/-! ## Terminal flags -/

theorem Tick_flags (g : Game) (r : Nat) :
    (g.gameOver = true → (Tick g r).state.gameOver = true) ∧
      (g.win = true → (Tick g r).state.win = true) := by
  rcases Tick_cases g r with ⟨-, h⟩ | ⟨-, -, h⟩ | ⟨-, -, -, h⟩
  · rw [h]
    exact ⟨id, id⟩
  · rw [h, moveSnake_frame g]
    exact ⟨fun _ => rfl, id⟩
  · rw [h]
    have hgf := grown_frame g
    split
    · exact ⟨fun hg => hgf.2.2.2.2.2.1.trans hg, fun _ => rfl⟩
    · split
      · have hs := spawnFood_fields { grown g with score := (grown g).score + 5 } r
        unfold eatFood
        exact ⟨fun hg => (hs.2.2.2.1.trans hgf.2.2.2.2.2.1).trans hg,
          fun hw => (hs.2.2.2.2.trans hgf.2.2.2.2.2.2).trans hw⟩
      · have hs := removeSnakeTail_fields (grown g)
        exact ⟨fun hg => (hs.2.2.2.1.trans hgf.2.2.2.2.2.1).trans hg,
          fun hw => (hs.2.2.2.2.trans hgf.2.2.2.2.2.2).trans hw⟩

/-- C15: `Start`, `Move d` and `Tick` never clear a terminal flag: if gameOver
is true before the call it is true after it, and likewise for win, whatever the
direction and the random draws. -/
theorem C15_flags_sticky (g : Game) (d : Direction) (r rx ry rf : Nat) :
    (g.gameOver = true → (Start g rx ry rf).state.gameOver = true) ∧
    (g.win = true → (Start g rx ry rf).state.win = true) ∧
    (g.gameOver = true → (Move g d).gameOver = true) ∧
    (g.win = true → (Move g d).win = true) ∧
    (g.gameOver = true → (Tick g r).state.gameOver = true) ∧
    (g.win = true → (Tick g r).state.win = true) := by
  have hstart : (Start g rx ry rf).state.gameOver = g.gameOver ∧
      (Start g rx ry rf).state.win = g.win := by
    rw [Start_eq]
    apply andThen_state (fun s => s.gameOver = g.gameOver ∧ s.win = g.win)
    · have h := growSnake_fields
        { g with snakeHeadX := (rx : Int) % 10, snakeHeadY := (ry : Int) % 10 }
      exact ⟨h.2.2.2.2.1, h.2.2.2.2.2⟩
    · intro g3 hg3
      have h := spawnFood_fields g3 rf
      exact ⟨h.2.2.2.1.trans hg3.1, h.2.2.2.2.trans hg3.2⟩
  have hmove : (Move g d).gameOver = g.gameOver ∧ (Move g d).win = g.win := by
    rw [Move_frame g d]
    exact ⟨rfl, rfl⟩
  refine ⟨fun h => hstart.1.trans h, fun h => hstart.2.trans h, fun h => hmove.1.trans h,
    fun h => hmove.2.trans h, (Tick_flags g r).1, (Tick_flags g r).2⟩

theorem C15_flags_sticky_witness :
    ({ loopGame with gameOver := true, win := true } : Game).gameOver = true ∧
      ({ loopGame with gameOver := true, win := true } : Game).win = true ∧
      (Tick { loopGame with gameOver := true, win := true } 0).state.gameOver = true ∧
      (Tick { loopGame with gameOver := true, win := true } 0).state.win = true ∧
      (Start { loopGame with gameOver := true, win := true } 1 2 3).state.win = true :=
  ⟨rfl, rfl,
    (C15_flags_sticky { loopGame with gameOver := true, win := true } Up 0 1 2 3).2.2.2.2.1 rfl,
    (C15_flags_sticky { loopGame with gameOver := true, win := true } Up 0 1 2 3).2.2.2.2.2 rfl,
    (C15_flags_sticky { loopGame with gameOver := true, win := true } Up 0 1 2 3).2.1 rfl⟩

/-! ## Walk -/

theorem walkCoords_eq (g : Game) : walkCoords g = yOuterOrder := by
  rfl

theorem mem_Walk (g : Game) (c : Int × Int × CellType) :
    c ∈ Walk g ↔ ∃ x y : Fin BoardSize, c = ((x : Int), (y : Int), g.cells x y) := by
  unfold Walk
  constructor
  · intro h
    rw [List.mem_flatMap] at h
    obtain ⟨y, -, hy⟩ := h
    rw [List.mem_map] at hy
    obtain ⟨x, -, rfl⟩ := hy
    exact ⟨x, y, rfl⟩
  · rintro ⟨x, y, rfl⟩
    rw [List.mem_flatMap]
    exact ⟨y, List.mem_finRange y, List.mem_map.2 ⟨x, List.mem_finRange x, rfl⟩⟩

theorem yOuterOrder_count : ∀ i j : Fin BoardSize,
    yOuterOrder.count ((i : Int), (j : Int)) = 1 := by
  decide

/-- C13: `Walk` calls the visitor exactly `N*N = 100` times, exactly once for
each coordinate `(x, y)` with `0 ≤ x, y < N`, each time with the cell type the
grid holds at `(x, y)`, and leaves the game state as it was. -/
theorem C13_walk_snapshot {σ : Type} (g : Game) (fn : Int → Int → CellType → σ → σ) (s : σ) :
    (WalkRun g fn s).2 = g ∧
    (WalkRun g fn s).1 = (Walk g).foldl (fun acc c => fn c.1 c.2.1 c.2.2 acc) s ∧
    (Walk g).length = BoardSize * BoardSize ∧
    (Walk g).length = 100 ∧
    (∀ x y : Int, InBounds x y → (walkCoords g).count (x, y) = 1) ∧
    (∀ x y : Int, ¬ InBounds x y → (walkCoords g).count (x, y) = 0) ∧
    (∀ c ∈ Walk g, readCell g.cells c.1 c.2.1 = some c.2.2) := by
  refine ⟨rfl, rfl, rfl, rfl, ?_, ?_, ?_⟩
  · intro x y hxy
    obtain ⟨i, j, rfl, rfl⟩ := exists_fin_of_inBounds hxy
    rw [walkCoords_eq]
    exact yOuterOrder_count i j
  · intro x y hxy
    rw [List.count_eq_zero]
    intro hmem
    unfold walkCoords at hmem
    rw [List.mem_map] at hmem
    obtain ⟨c, hc, hcx⟩ := hmem
    obtain ⟨i, j, rfl⟩ := (mem_Walk g c).1 hc
    apply hxy
    have h1 : (i : Int) = x := congrArg Prod.fst hcx
    have h2 : (j : Int) = y := congrArg Prod.snd hcx
    rw [← h1, ← h2]
    exact inBounds_coe i j
  · intro c hc
    obtain ⟨i, j, rfl⟩ := (mem_Walk g c).1 hc
    exact readCell_coe g.cells i j

theorem C13_walk_snapshot_witness :
    InBounds 3 7 ∧ (walkCoords scenario).count (3, 7) = 1 :=
  ⟨by decide, (C13_walk_snapshot scenario (fun _ _ _ (n : Nat) => n + 1) 0).2.2.2.2.1 3 7
    (by decide)⟩

/-- C14 as stated fails: the second call of `Walk` is for `(1, 0)`, not `(0, 1)`;
the coordinates run with `x` fastest, which is not the order with `x` in the
outer loop. -/
theorem C14_counterexample :
    (walkCoords NewGame)[1]? = some (1, 0) ∧ xOuterOrder[1]? = some (0, 1) ∧
      walkCoords NewGame ≠ xOuterOrder := by
  decide

set_option maxRecDepth 100000 in
/-- C14 (amended): `Walk` iterates `y` in the outer loop and `x` in the inner
loop: the coordinates passed to the visitor are (0,0), (1,0), ..., (N-1,0),
(0,1), ..., (N-1,N-1); the call number `k` (from 0) is for `(k mod N, k div N)`. -/
theorem C14_walk_order (g : Game) :
    walkCoords g = yOuterOrder ∧
    (∀ k : Fin (BoardSize * BoardSize),
      (walkCoords g)[k.val]? = some (((k.val % BoardSize : Nat) : Int),
        ((k.val / BoardSize : Nat) : Int))) ∧
    (walkCoords g).take 11 =
      [(0, 0), (1, 0), (2, 0), (3, 0), (4, 0), (5, 0), (6, 0), (7, 0), (8, 0), (9, 0), (0, 1)] ∧
    (walkCoords g).getLast? = some (9, 9) := by
  rw [walkCoords_eq]
  decide

/-! ## Food placement on a full grid -/

/-- On a grid without an Empty cell `spawnFood` returns with the food coordinate
set to (0,0) and cell (0,0) overwritten with Food, whatever the draw. -/
theorem spawnFood_no_free (g : Game) (r : Nat) (h : freeCells g = []) :
    spawnFood g r = .ret { g with
      food := (0, 0)
      cells := fun a b => if (a : Int) = 0 ∧ (b : Int) = 0 then CellFood else g.cells a b } := by
  have hr : randomFreeCell g r = .ok (0, 0) := by
    unfold randomFreeCell
    rw [h]
    rfl
  have hlen : ¬ arrayLen ((0 : Int), (0 : Int)) = 0 := by unfold arrayLen; decide
  unfold spawnFood
  rw [hr]
  dsimp only
  rw [if_neg hlen, writeCell_inBounds _ _ (by decide)]

/-- C17 fails on the code: on a grid without an Empty cell `spawnFood` is not a
no-op. `randomFreeCell` returns the array `[0, 0]`, whose length is 2, so the
guard `len(freeCells) == 0` never fires: the food coordinate becomes (0,0) and
cell (0,0), a SnakeBody cell, is overwritten with Food. -/
theorem C17_spawn_on_full_grid :
    freeCells fullBoard = [] ∧ Full fullBoard ∧
      fullBoard.food = (9, 0) ∧ fullBoard.cells 0 0 = CellSnake ∧
      (spawnFood fullBoard 0).returned = true ∧
      (spawnFood fullBoard 0).state.food = (0, 0) ∧
      (spawnFood fullBoard 0).state.cells 0 0 = CellFood ∧
      (spawnFood fullBoard 0).state.food ≠ fullBoard.food ∧
      (spawnFood fullBoard 0).state.cells 0 0 ≠ fullBoard.cells 0 0 ∧
      (Start fullBoard 4 4 0).state.cells 0 0 = CellFood := by
  decide

/-! ## The branches of `Tick` when the stored body is in bounds -/

theorem eatFood_grown_ret (g : Game) (r : Nat) (hfree : freeCells (grown g) ≠ []) :
    ∃ i j : Fin BoardSize, (grown g).cells i j = CellEmpty ∧
      eatFood (grown g) r = .ret { grown g with
        score := g.score + 5
        food := ((i : Int), (j : Int))
        cells := fun a b =>
          if (a : Int) = i ∧ (b : Int) = j then CellFood else (grown g).cells a b } := by
  unfold eatFood
  obtain ⟨i, j, hij, hsp⟩ := spawnFood_ret { grown g with score := (grown g).score + 5 } r hfree
  refine ⟨i, j, hij, ?_⟩
  rw [hsp, (grown_frame g).2.2.2.1]

theorem removeSnakeTail_grown_ret (g : Game) (hin : ∀ p ∈ g.snakeBody, InBounds p.1 p.2)
    (hb : InBounds (moveSnake g).snakeHeadX (moveSnake g).snakeHeadY) :
    ∃ t rest, g.snakeBody ++ [((moveSnake g).snakeHeadX, (moveSnake g).snakeHeadY)] = t :: rest ∧
      InBounds t.1 t.2 ∧
      removeSnakeTail (grown g) = .ret { grown g with
        cells := fun a b =>
          if (a : Int) = t.1 ∧ (b : Int) = t.2 then CellEmpty else (grown g).cells a b
        snakeBody := rest } := by
  cases hbody : g.snakeBody ++ [((moveSnake g).snakeHeadX, (moveSnake g).snakeHeadY)] with
  | nil => simp at hbody
  | cons t rest =>
    have htmem : t ∈ g.snakeBody ++ [((moveSnake g).snakeHeadX, (moveSnake g).snakeHeadY)] := by
      rw [hbody]; exact List.mem_cons_self _ _
    have ht : InBounds t.1 t.2 := by
      rw [List.mem_append, List.mem_singleton] at htmem
      rcases htmem with h | h
      · exact hin t h
      · rw [h]; exact hb
    refine ⟨t, rest, rfl, ht, ?_⟩
    have hgb : (grown g).snakeBody = t :: rest := by rw [grown_body, hbody]
    rw [removeSnakeTail_ret (grown g) t rest hgb ht]

/-- With the stored body in bounds every `Tick` returns, in one of five ways. -/
theorem Tick_shape (g : Game) (r : Nat) (hin : ∀ p ∈ g.snakeBody, InBounds p.1 p.2) :
    (g.direction = Undefine ∧ Tick g r = .ret g) ∨
    ((¬ InBounds (moveSnake g).snakeHeadX (moveSnake g).snakeHeadY ∨
        readCell g.cells (moveSnake g).snakeHeadX (moveSnake g).snakeHeadY = some CellSnake) ∧
      Tick g r = .ret { moveSnake g with gameOver := true }) ∨
    (InBounds (moveSnake g).snakeHeadX (moveSnake g).snakeHeadY ∧
      readCell g.cells (moveSnake g).snakeHeadX (moveSnake g).snakeHeadY ≠ some CellSnake ∧
      ¬ EmptyElsewhere g (moveSnake g).snakeHeadX (moveSnake g).snakeHeadY ∧
      Tick g r = .ret { grown g with win := true }) ∨
    (InBounds (moveSnake g).snakeHeadX (moveSnake g).snakeHeadY ∧
      readCell g.cells (moveSnake g).snakeHeadX (moveSnake g).snakeHeadY ≠ some CellSnake ∧
      ((moveSnake g).snakeHeadX, (moveSnake g).snakeHeadY) = g.food ∧
      ∃ i j : Fin BoardSize, (grown g).cells i j = CellEmpty ∧
        Tick g r = .ret { grown g with
          score := g.score + 5
          food := ((i : Int), (j : Int))
          cells := fun a b =>
            if (a : Int) = i ∧ (b : Int) = j then CellFood else (grown g).cells a b }) ∨
    (InBounds (moveSnake g).snakeHeadX (moveSnake g).snakeHeadY ∧
      readCell g.cells (moveSnake g).snakeHeadX (moveSnake g).snakeHeadY ≠ some CellSnake ∧
      ((moveSnake g).snakeHeadX, (moveSnake g).snakeHeadY) ≠ g.food ∧
      ∃ t rest,
        g.snakeBody ++ [((moveSnake g).snakeHeadX, (moveSnake g).snakeHeadY)] = t :: rest ∧
        InBounds t.1 t.2 ∧
        Tick g r = .ret { grown g with
          cells := fun a b =>
            if (a : Int) = t.1 ∧ (b : Int) = t.2 then CellEmpty else (grown g).cells a b
          snakeBody := rest }) := by
  rcases Tick_cases g r with ⟨hd, h⟩ | ⟨-, hc, h⟩ | ⟨-, hb, hs, h⟩
  · exact Or.inl ⟨hd, h⟩
  · exact Or.inr (Or.inl ⟨hc, h⟩)
  · right; right
    by_cases he : EmptyElsewhere g (moveSnake g).snakeHeadX (moveSnake g).snakeHeadY
    · right
      have hfree : freeCells (grown g) ≠ [] := freeCells_grown_ne_nil g he
      have hlen : ¬ (freeCells (grown g)).length = 0 :=
        fun hl => hfree (List.length_eq_zero.1 hl)
      rw [if_neg hlen] at h
      have hfc : foodCollision (grown g) = true ↔
          ((moveSnake g).snakeHeadX, (moveSnake g).snakeHeadY) = g.food := by
        unfold foodCollision
        rw [(grown_frame g).1, (grown_frame g).2.1, (grown_frame g).2.2.1]
        simp only [Bool.and_eq_true, beq_iff_eq]
        constructor
        · intro hh; exact Prod.ext hh.1 hh.2
        · intro hh; exact ⟨congrArg Prod.fst hh, congrArg Prod.snd hh⟩
      by_cases hf : ((moveSnake g).snakeHeadX, (moveSnake g).snakeHeadY) = g.food
      · left
        rw [if_pos (hfc.2 hf)] at h
        obtain ⟨i, j, hij, he'⟩ := eatFood_grown_ret g r hfree
        exact ⟨hb, hs, hf, i, j, hij, h.trans he'⟩
      · right
        rw [if_neg (fun hh => hf (hfc.1 hh))] at h
        obtain ⟨t, rest, hbody, ht, hr⟩ := removeSnakeTail_grown_ret g hin hb
        exact ⟨hb, hs, hf, t, rest, hbody, ht, h.trans hr⟩
    · left
      rw [freeCells_grown_eq_nil g he] at h
      exact ⟨hb, hs, he, h⟩

/-! ## Preconditions of `Tick` -/

/-- C19: when the stored body segments are in bounds (the head may be anywhere),
`Tick` returns without a panic for every direction and random draw: no grid
access is out of range, the first element is never taken of an empty body, and
`rand.Intn` is never called on an empty candidate list; afterwards the body
segments are in bounds and the food coordinate is unchanged or in bounds. The
grid read of the self-collision check happens only behind a false wall check,
where it is in range. -/
theorem C19_tick_preconditions (g : Game) (r : Nat)
    (hin : ∀ p ∈ g.snakeBody, InBounds p.1 p.2) :
    (Tick g r).returned = true ∧
    (∀ f s, Tick g r ≠ .panic f s) ∧
    (∀ p ∈ (Tick g r).state.snakeBody, InBounds p.1 p.2) ∧
    ((Tick g r).state.food = g.food ∨
      InBounds (Tick g r).state.food.1 (Tick g r).state.food.2) ∧
    (wallCollision (moveSnake g) = false → ∃ b, snakeCollision (moveSnake g) = .ok b) := by
  have hgrown : InBounds (moveSnake g).snakeHeadX (moveSnake g).snakeHeadY →
      ∀ p ∈ (grown g).snakeBody, InBounds p.1 p.2 := by
    intro hb p hp
    rw [grown_body, List.mem_append, List.mem_singleton] at hp
    rcases hp with h | h
    · exact hin p h
    · rw [h]; exact hb
  have hread : wallCollision (moveSnake g) = false →
      ∃ b, snakeCollision (moveSnake g) = .ok b := by
    intro hw
    have hb : InBounds (moveSnake g).snakeHeadX (moveSnake g).snakeHeadY := by
      by_contra hn
      rw [(wallCollision_iff _).2 hn] at hw
      cases hw
    obtain ⟨i, j, hi, hj⟩ := exists_fin_of_inBounds hb
    unfold snakeCollision
    rw [← hi, ← hj, readCell_coe]
    exact ⟨_, rfl⟩
  have hnp : ∀ (g' : Game) (f : Fault) (s : Game), Outcome.ret g' ≠ Outcome.panic f s := by
    intro g' f s hh
    cases hh
  rcases Tick_shape g r hin with ⟨-, h⟩ | ⟨-, h⟩ | ⟨hb, -, -, h⟩ | ⟨hb, -, -, i, j, -, h⟩ |
      ⟨hb, -, -, t, rest, hbody, -, h⟩
  · rw [h]
    exact ⟨rfl, hnp _, hin, Or.inl rfl, hread⟩
  · rw [h]
    refine ⟨rfl, hnp _, ?_, Or.inl ?_, hread⟩
    · show ∀ p ∈ (moveSnake g).snakeBody, InBounds p.1 p.2
      rw [moveSnake_frame g]; exact hin
    · show (moveSnake g).food = g.food
      rw [moveSnake_frame g]
  · rw [h]
    exact ⟨rfl, hnp _, hgrown hb, Or.inl (grown_frame g).2.2.1, hread⟩
  · rw [h]
    exact ⟨rfl, hnp _, hgrown hb, Or.inr (inBounds_coe i j), hread⟩
  · rw [h]
    refine ⟨rfl, hnp _, ?_, Or.inl (grown_frame g).2.2.1, hread⟩
    intro p hp
    apply hgrown hb
    rw [grown_body, hbody]
    exact List.mem_cons_of_mem _ hp

theorem C19_tick_preconditions_witness :
    (∀ p ∈ ({ loopGame with snakeHeadX := -3, direction := Right } : Game).snakeBody,
        InBounds p.1 p.2) ∧
      (Tick { loopGame with snakeHeadX := -3, direction := Right } 0).returned = true :=
  ⟨by decide,
    (C19_tick_preconditions { loopGame with snakeHeadX := -3, direction := Right } 0
      (by decide)).1⟩

/-! ## The grid invariant -/

theorem grown_bodyOnGrid (g : Game) (hB : BodyOnGrid g)
    (hb : InBounds (moveSnake g).snakeHeadX (moveSnake g).snakeHeadY)
    (hs : readCell g.cells (moveSnake g).snakeHeadX (moveSnake g).snakeHeadY ≠ some CellSnake) :
    BodyOnGrid (grown g) := by
  obtain ⟨hnd, hin, hsn, h3⟩ := hB
  obtain ⟨mi, mj, hmi, hmj⟩ := exists_fin_of_inBounds hb
  have hm : ((moveSnake g).snakeHeadX, (moveSnake g).snakeHeadY) ∉ g.snakeBody := by
    intro hmem
    apply hs
    rw [← hmi, ← hmj, readCell_coe, (hsn mi mj).2 (by rw [hmi, hmj]; exact hmem)]
  refine ⟨?_, ?_, ?_, ?_⟩
  · rw [grown_body, List.nodup_append]
    refine ⟨hnd, List.nodup_singleton _, ?_⟩
    intro a ha ha'
    rw [List.mem_singleton] at ha'
    rw [ha'] at ha
    exact hm ha
  · intro p hp
    rw [grown_body, List.mem_append, List.mem_singleton] at hp
    rcases hp with h | h
    · exact hin p h
    · rw [h]; exact hb
  · intro i j
    rw [grown_cells, grown_body, List.mem_append, List.mem_singleton]
    by_cases hc : (i : Int) = (moveSnake g).snakeHeadX ∧ (j : Int) = (moveSnake g).snakeHeadY
    · rw [if_pos hc]
      exact ⟨fun _ => Or.inr (Prod.ext hc.1 hc.2), fun _ => rfl⟩
    · rw [if_neg hc, hsn]
      constructor
      · exact fun h => Or.inl h
      · rintro (h | h)
        · exact h
        · exact absurd ⟨congrArg Prod.fst h, congrArg Prod.snd h⟩ hc
  · intro i j
    rw [grown_cells]
    split
    · exact Or.inl rfl
    · exact h3 i j

theorem full_not_step (g : Game) (hf : Full g)
    (hb : InBounds (moveSnake g).snakeHeadX (moveSnake g).snakeHeadY)
    (hs : readCell g.cells (moveSnake g).snakeHeadX (moveSnake g).snakeHeadY ≠ some CellSnake) :
    False := by
  obtain ⟨mi, mj, hmi, hmj⟩ := exists_fin_of_inBounds hb
  apply hs
  rw [← hmi, ← hmj, readCell_coe, hf mi mj]

theorem grown_food_iff (g : Game) (hF : FoodOnGrid g)
    (hnf : ((moveSnake g).snakeHeadX, (moveSnake g).snakeHeadY) ≠ g.food)
    (a b : Fin BoardSize) :
    (grown g).cells a b = CellFood ↔ ((a : Int), (b : Int)) = g.food := by
  rw [grown_cells]
  by_cases hc : (a : Int) = (moveSnake g).snakeHeadX ∧ (b : Int) = (moveSnake g).snakeHeadY
  · rw [if_pos hc]
    constructor
    · intro h; exact absurd h (by decide)
    · intro h
      exact absurd ((Prod.ext hc.1 hc.2 : ((a : Int), (b : Int)) = _).symm.trans h) hnf
  · rw [if_neg hc]
    exact hF.2 a b

theorem grown_no_food (g : Game) (hF : FoodOnGrid g)
    (hf : ((moveSnake g).snakeHeadX, (moveSnake g).snakeHeadY) = g.food)
    (a b : Fin BoardSize) : (grown g).cells a b ≠ CellFood := by
  rw [grown_cells]
  by_cases hc : (a : Int) = (moveSnake g).snakeHeadX ∧ (b : Int) = (moveSnake g).snakeHeadY
  · rw [if_pos hc]; decide
  · rw [if_neg hc]
    intro h
    have := (hF.2 a b).1 h
    rw [← hf] at this
    exact hc ⟨congrArg Prod.fst this, congrArg Prod.snd this⟩

/-- `Tick` keeps the body on the grid; it keeps the food on the grid unless the
head eats it on the last free cell, in which case it sets win on a full grid. -/
theorem Tick_inv (g : Game) (r : Nat) (hB : BodyOnGrid g) (hF : FoodOnGrid g ∨ Full g) :
    ∃ g', Tick g r = .ret g' ∧ BodyOnGrid g' ∧
      (FoodOnGrid g → FoodOnGrid g' ∨
        (((moveSnake g).snakeHeadX, (moveSnake g).snakeHeadY) = g.food ∧
          g'.win = true ∧ Full g')) ∧
      (Full g → Full g') := by
  rcases Tick_shape g r hB.2.1 with ⟨-, h⟩ | ⟨-, h⟩ | ⟨hb, hs, hne, h⟩ |
      ⟨hb, hs, hf, i, j, hij, h⟩ | ⟨hb, hs, hnf, t, rest, hbody, ht, h⟩
  · exact ⟨g, h, hB, fun hf => Or.inl hf, id⟩
  · refine ⟨_, h, ?_, fun hf => Or.inl ?_, ?_⟩
    · rw [moveSnake_frame g]; exact hB
    · rw [moveSnake_frame g]; exact hf
    · rw [moveSnake_frame g]; exact id
  · have hG := grown_bodyOnGrid g hB hb hs
    refine ⟨_, h, hG, ?_, fun hfull => (full_not_step g hfull hb hs).elim⟩
    intro hFg
    by_cases hf : ((moveSnake g).snakeHeadX, (moveSnake g).snakeHeadY) = g.food
    · right
      refine ⟨hf, rfl, ?_⟩
      intro a b
      show (grown g).cells a b = CellSnake
      rcases hG.2.2.2 a b with h1 | h1 | h1
      · exact h1
      · exact absurd h1 (grown_no_food g hFg hf a b)
      · exfalso
        rw [grown_cells] at h1
        by_cases hc : (a : Int) = (moveSnake g).snakeHeadX ∧ (b : Int) = (moveSnake g).snakeHeadY
        · rw [if_pos hc] at h1
          exact absurd h1 (by decide)
        · rw [if_neg hc] at h1
          exact hne ⟨a, b, h1, hc⟩
    · left
      refine ⟨?_, ?_⟩
      · show InBounds (grown g).food.1 (grown g).food.2
        rw [(grown_frame g).2.2.1]; exact hFg.1
      · intro a b
        show (grown g).cells a b = CellFood ↔ ((a : Int), (b : Int)) = (grown g).food
        rw [(grown_frame g).2.2.1]
        exact grown_food_iff g hFg hf a b
  · have hG := grown_bodyOnGrid g hB hb hs
    have hFg : FoodOnGrid g := by
      rcases hF with h1 | h1
      · exact h1
      · exact (full_not_step g h1 hb hs).elim
    have hnm : ((i : Int), (j : Int)) ∉ (grown g).snakeBody := by
      intro hmem
      have := (hG.2.2.1 i j).2 hmem
      rw [hij] at this
      exact absurd this (by decide)
    refine ⟨_, h, ⟨hG.1, hG.2.1, ?_, ?_⟩, fun _ => Or.inl ⟨inBounds_coe i j, ?_⟩,
      fun hfull => (full_not_step g hfull hb hs).elim⟩
    · intro a b
      show (if (a : Int) = i ∧ (b : Int) = j then CellFood else (grown g).cells a b) = CellSnake
        ↔ ((a : Int), (b : Int)) ∈ (grown g).snakeBody
      by_cases hc : (a : Int) = i ∧ (b : Int) = j
      · rw [if_pos hc]
        constructor
        · intro hh; exact absurd hh (by decide)
        · intro hh
          rw [hc.1, hc.2] at hh
          exact absurd hh hnm
      · rw [if_neg hc]
        exact hG.2.2.1 a b
    · intro a b
      show (if (a : Int) = i ∧ (b : Int) = j then CellFood else (grown g).cells a b) = CellSnake ∨
        (if (a : Int) = i ∧ (b : Int) = j then CellFood else (grown g).cells a b) = CellFood ∨
        (if (a : Int) = i ∧ (b : Int) = j then CellFood else (grown g).cells a b) = CellEmpty
      by_cases hc : (a : Int) = i ∧ (b : Int) = j
      · rw [if_pos hc]; exact Or.inr (Or.inl rfl)
      · rw [if_neg hc]; exact hG.2.2.2 a b
    · intro a b
      show (if (a : Int) = i ∧ (b : Int) = j then CellFood else (grown g).cells a b) = CellFood
        ↔ ((a : Int), (b : Int)) = ((i : Int), (j : Int))
      by_cases hc : (a : Int) = i ∧ (b : Int) = j
      · rw [if_pos hc]
        exact ⟨fun _ => Prod.ext hc.1 hc.2, fun _ => rfl⟩
      · rw [if_neg hc]
        constructor
        · intro hh; exact absurd hh (grown_no_food g hFg hf a b)
        · intro hh
          exact absurd ⟨congrArg Prod.fst hh, congrArg Prod.snd hh⟩ hc
  · have hG := grown_bodyOnGrid g hB hb hs
    have hgb : (grown g).snakeBody = t :: rest := by rw [grown_body, hbody]
    have hnd : (t :: rest).Nodup := by rw [← hgb]; exact hG.1
    have htr : t ∉ rest := (List.nodup_cons.1 hnd).1
    have hFg : FoodOnGrid g := by
      rcases hF with h1 | h1
      · exact h1
      · exact (full_not_step g h1 hb hs).elim
    refine ⟨_, h, ⟨(List.nodup_cons.1 hnd).2, ?_, ?_, ?_⟩, fun _ => Or.inl ⟨?_, ?_⟩,
      fun hfull => (full_not_step g hfull hb hs).elim⟩
    · intro p hp
      exact hG.2.1 p (by rw [hgb]; exact List.mem_cons_of_mem _ hp)
    · intro a b
      show (if (a : Int) = t.1 ∧ (b : Int) = t.2 then CellEmpty else (grown g).cells a b)
        = CellSnake ↔ ((a : Int), (b : Int)) ∈ rest
      by_cases hc : (a : Int) = t.1 ∧ (b : Int) = t.2
      · rw [if_pos hc]
        constructor
        · intro hh; exact absurd hh (by decide)
        · intro hh
          have : ((a : Int), (b : Int)) = t := Prod.ext hc.1 hc.2
          rw [this] at hh
          exact absurd hh htr
      · rw [if_neg hc, hG.2.2.1 a b, hgb, List.mem_cons]
        constructor
        · rintro (hh | hh)
          · exact absurd ⟨congrArg Prod.fst hh, congrArg Prod.snd hh⟩ hc
          · exact hh
        · exact fun hh => Or.inr hh
    · intro a b
      show (if (a : Int) = t.1 ∧ (b : Int) = t.2 then CellEmpty else (grown g).cells a b)
          = CellSnake ∨
        (if (a : Int) = t.1 ∧ (b : Int) = t.2 then CellEmpty else (grown g).cells a b)
          = CellFood ∨
        (if (a : Int) = t.1 ∧ (b : Int) = t.2 then CellEmpty else (grown g).cells a b)
          = CellEmpty
      by_cases hc : (a : Int) = t.1 ∧ (b : Int) = t.2
      · rw [if_pos hc]; exact Or.inr (Or.inr rfl)
      · rw [if_neg hc]; exact hG.2.2.2 a b
    · show InBounds (grown g).food.1 (grown g).food.2
      rw [(grown_frame g).2.2.1]; exact hFg.1
    · intro a b
      show (if (a : Int) = t.1 ∧ (b : Int) = t.2 then CellEmpty else (grown g).cells a b)
        = CellFood ↔ ((a : Int), (b : Int)) = (grown g).food
      rw [(grown_frame g).2.2.1]
      by_cases hc : (a : Int) = t.1 ∧ (b : Int) = t.2
      · rw [if_pos hc]
        constructor
        · intro hh; exact absurd hh (by decide)
        · intro hh
          exfalso
          have hfood : (grown g).cells a b = CellFood := (grown_food_iff g hFg hnf a b).2 hh
          have htmem : ((a : Int), (b : Int)) ∈ (grown g).snakeBody := by
            have hab : ((a : Int), (b : Int)) = t := Prod.ext hc.1 hc.2
            rw [hgb, hab]
            exact List.mem_cons_self _ _
          have hsnake := (hG.2.2.1 a b).2 htmem
          rw [hfood] at hsnake
          exact absurd hsnake (by decide)
      · rw [if_neg hc]
        exact grown_food_iff g hFg hnf a b

/-! ## Grid consistency in the words of the specification -/

theorem onGrid_of_gridConsistent (g : Game) (hnd : g.snakeBody.Nodup) (hc : GridConsistent g) :
    BodyOnGrid g ∧ FoodOnGrid g := by
  obtain ⟨hS, hFd, hE⟩ := hc
  have hfin : InBounds g.food.1 g.food.2 := readCell_isSome hFd
  obtain ⟨fi, fj, hfi, hfj⟩ := exists_fin_of_inBounds hfin
  have hfood : g.cells fi fj = CellFood := by
    rw [← hfi, ← hfj, readCell_coe] at hFd
    exact Option.some.inj hFd
  have hsnake : ∀ i j : Fin BoardSize, ((i : Int), (j : Int)) ∈ g.snakeBody →
      g.cells i j = CellSnake := by
    intro i j hm
    have := hS _ hm
    rw [readCell_coe] at this
    exact Option.some.inj this
  have hfeq : ∀ i j : Fin BoardSize, ((i : Int), (j : Int)) = g.food → g.cells i j = CellFood := by
    intro i j hh
    have h1 : i = fi := coe_inj ((congrArg Prod.fst hh).trans hfi.symm)
    have h2 : j = fj := coe_inj ((congrArg Prod.snd hh).trans hfj.symm)
    rw [h1, h2]; exact hfood
  refine ⟨⟨hnd, fun p hp => readCell_isSome (hS p hp), ?_, ?_⟩, hfin, ?_⟩
  · intro i j
    constructor
    · intro hcell
      by_contra hn
      by_cases hf : ((i : Int), (j : Int)) = g.food
      · rw [hfeq i j hf] at hcell
        exact absurd hcell (by decide)
      · rw [hE i j hn hf] at hcell
        exact absurd hcell (by decide)
    · exact hsnake i j
  · intro i j
    by_cases hm : ((i : Int), (j : Int)) ∈ g.snakeBody
    · exact Or.inl (hsnake i j hm)
    · by_cases hf : ((i : Int), (j : Int)) = g.food
      · exact Or.inr (Or.inl (hfeq i j hf))
      · exact Or.inr (Or.inr (hE i j hm hf))
  · intro i j
    constructor
    · intro hcell
      by_contra hn
      by_cases hm : ((i : Int), (j : Int)) ∈ g.snakeBody
      · rw [hsnake i j hm] at hcell
        exact absurd hcell (by decide)
      · rw [hE i j hm hn] at hcell
        exact absurd hcell (by decide)
    · exact hfeq i j

theorem snakeCells_of_bodyOnGrid (g : Game) (hB : BodyOnGrid g) :
    ∀ p ∈ g.snakeBody, readCell g.cells p.1 p.2 = some CellSnake := by
  intro p hp
  obtain ⟨i, j, hi, hj⟩ := exists_fin_of_inBounds (hB.2.1 p hp)
  rw [← hi, ← hj, readCell_coe, (hB.2.2.1 i j).2 (by rw [hi, hj]; exact hp)]

theorem gridConsistent_of_onGrid (g : Game) (hB : BodyOnGrid g) (hF : FoodOnGrid g) :
    GridConsistent g := by
  refine ⟨snakeCells_of_bodyOnGrid g hB, ?_, ?_⟩
  · obtain ⟨i, j, hi, hj⟩ := exists_fin_of_inBounds hF.1
    rw [← hi, ← hj, readCell_coe, (hF.2 i j).2 (Prod.ext hi hj)]
  · intro i j hm hf
    rcases hB.2.2.2 i j with h | h | h
    · exact absurd ((hB.2.2.1 i j).1 h) hm
    · exact absurd ((hF.2 i j).1 h) hf
    · exact h

/-! ## Start on a fresh game -/

theorem Start_NewGame_spawn (rx ry rf : Nat) :
    Start NewGame rx ry rf = spawnFood (startGrown rx ry) rf := by
  have hb : InBounds ((rx : Int) % 10) ((ry : Int) % 10) := by
    unfold InBounds
    have hN : ((BoardSize : Nat) : Int) = 10 := rfl
    omega
  rw [Start_eq, growSnake_ret _ hb]
  rfl

theorem startGrown_free (rx ry : Nat) : freeCells (startGrown rx ry) ≠ [] := by
  have hmem : ∀ i : Fin BoardSize, ¬ ((i : Int) = (rx : Int) % 10) →
      (((i : Int), ((0 : Fin BoardSize) : Int)) : Int × Int) ∈ freeCells (startGrown rx ry) := by
    intro i hi
    rw [mem_freeCells]
    refine ⟨i, 0, ?_, rfl⟩
    show (if (i : Int) = (rx : Int) % 10 ∧ ((0 : Fin BoardSize) : Int) = (ry : Int) % 10
      then CellSnake else CellEmpty) = CellEmpty
    rw [if_neg (fun h => hi h.1)]
  by_cases h0 : (rx : Int) % 10 = 0
  · have := hmem 1 (by rw [h0]; decide)
    intro hnil
    rw [hnil] at this
    cases this
  · have := hmem 0 (fun h => h0 h.symm)
    intro hnil
    rw [hnil] at this
    cases this

/-- `Start` on a fresh game returns: the head is the drawn cell, the body is the
head alone, and the food is on a different cell. -/
theorem Start_NewGame (rx ry rf : Nat) :
    ∃ hi hj fi fj : Fin BoardSize,
      (hi : Int) = (rx : Int) % 10 ∧ (hj : Int) = (ry : Int) % 10 ∧
      ¬ ((fi : Int) = hi ∧ (fj : Int) = hj) ∧
      Start NewGame rx ry rf = .ret { NewGame with
        snakeHeadX := (hi : Int)
        snakeHeadY := (hj : Int)
        snakeBody := [((hi : Int), (hj : Int))]
        food := ((fi : Int), (fj : Int))
        cells := fun a b =>
          if (a : Int) = fi ∧ (b : Int) = fj then CellFood
          else if (a : Int) = hi ∧ (b : Int) = hj then CellSnake
          else CellEmpty } := by
  have hb : InBounds ((rx : Int) % 10) ((ry : Int) % 10) := by
    unfold InBounds
    have hN : ((BoardSize : Nat) : Int) = 10 := rfl
    omega
  obtain ⟨hi, hj, hhi, hhj⟩ := exists_fin_of_inBounds hb
  obtain ⟨fi, fj, hfe, hsp⟩ := spawnFood_ret (startGrown rx ry) rf (startGrown_free rx ry)
  refine ⟨hi, hj, fi, fj, hhi, hhj, ?_, ?_⟩
  · intro hh
    have : (startGrown rx ry).cells fi fj = CellSnake := by
      show (if (fi : Int) = (rx : Int) % 10 ∧ (fj : Int) = (ry : Int) % 10
        then CellSnake else CellEmpty) = CellSnake
      rw [if_pos ⟨hh.1.trans hhi, hh.2.trans hhj⟩]
    rw [hfe] at this
    exact absurd this (by decide)
  · rw [Start_NewGame_spawn, hsp, hhi, hhj]
    rfl

theorem Start_NewGame_inv (rx ry rf : Nat) :
    ∃ g', Start NewGame rx ry rf = .ret g' ∧ BodyOnGrid g' ∧ FoodOnGrid g' ∧
      g'.score = 0 ∧ g'.snakeBody.length = 1 := by
  obtain ⟨hi, hj, fi, fj, -, -, hne, hS⟩ := Start_NewGame rx ry rf
  refine ⟨_, hS, ⟨List.nodup_singleton _, ?_, ?_, ?_⟩, ⟨inBounds_coe fi fj, ?_⟩, rfl, rfl⟩
  · intro p hp
    rw [List.mem_singleton.1 hp]
    exact inBounds_coe hi hj
  · intro a b
    show (if (a : Int) = fi ∧ (b : Int) = fj then CellFood
      else if (a : Int) = hi ∧ (b : Int) = hj then CellSnake else CellEmpty) = CellSnake
      ↔ ((a : Int), (b : Int)) ∈ [((hi : Int), (hj : Int))]
    rw [List.mem_singleton]
    by_cases hf : (a : Int) = fi ∧ (b : Int) = fj
    · rw [if_pos hf]
      constructor
      · intro h; exact absurd h (by decide)
      · intro h
        exfalso
        apply hne
        exact ⟨hf.1.symm.trans (congrArg Prod.fst h), hf.2.symm.trans (congrArg Prod.snd h)⟩
    · rw [if_neg hf]
      by_cases hh : (a : Int) = hi ∧ (b : Int) = hj
      · rw [if_pos hh]
        exact ⟨fun _ => Prod.ext hh.1 hh.2, fun _ => rfl⟩
      · rw [if_neg hh]
        constructor
        · intro h; exact absurd h (by decide)
        · intro h; exact absurd ⟨congrArg Prod.fst h, congrArg Prod.snd h⟩ hh
  · intro a b
    show (if (a : Int) = fi ∧ (b : Int) = fj then CellFood
        else if (a : Int) = hi ∧ (b : Int) = hj then CellSnake else CellEmpty) = CellSnake ∨
      (if (a : Int) = fi ∧ (b : Int) = fj then CellFood
        else if (a : Int) = hi ∧ (b : Int) = hj then CellSnake else CellEmpty) = CellFood ∨
      (if (a : Int) = fi ∧ (b : Int) = fj then CellFood
        else if (a : Int) = hi ∧ (b : Int) = hj then CellSnake else CellEmpty) = CellEmpty
    by_cases hf : (a : Int) = fi ∧ (b : Int) = fj
    · rw [if_pos hf]; exact Or.inr (Or.inl rfl)
    · rw [if_neg hf]
      by_cases hh : (a : Int) = hi ∧ (b : Int) = hj
      · rw [if_pos hh]; exact Or.inl rfl
      · rw [if_neg hh]; exact Or.inr (Or.inr rfl)
  · intro a b
    show (if (a : Int) = fi ∧ (b : Int) = fj then CellFood
      else if (a : Int) = hi ∧ (b : Int) = hj then CellSnake else CellEmpty) = CellFood
      ↔ ((a : Int), (b : Int)) = ((fi : Int), (fj : Int))
    by_cases hf : (a : Int) = fi ∧ (b : Int) = fj
    · rw [if_pos hf]
      exact ⟨fun _ => Prod.ext hf.1 hf.2, fun _ => rfl⟩
    · rw [if_neg hf]
      constructor
      · intro h
        exfalso
        by_cases hh : (a : Int) = hi ∧ (b : Int) = hj
        · rw [if_pos hh] at h
          exact absurd h (by decide)
        · rw [if_neg hh] at h
          exact absurd h (by decide)
      · intro h; exact absurd ⟨congrArg Prod.fst h, congrArg Prod.snd h⟩ hf

/-! ## Reachable states -/

theorem Reachable_inv (g : Game) (h : Reachable g) :
    BodyOnGrid g ∧ (FoodOnGrid g ∨ Full g) := by
  induction h with
  | start rx ry rf =>
    obtain ⟨g', hS, hB, hF, -, -⟩ := Start_NewGame_inv rx ry rf
    rw [hS]
    exact ⟨hB, Or.inl hF⟩
  | move d _ ih =>
    rw [Move_frame _ d]
    exact ih
  | @tick g0 r _ ih =>
    obtain ⟨g', hT, hB, hFd, hFl⟩ := Tick_inv g0 r ih.1 ih.2
    rw [hT]
    refine ⟨hB, ?_⟩
    rcases ih.2 with hf | hf
    · rcases hFd hf with h1 | ⟨-, -, h1⟩
      · exact Or.inl h1
      · exact Or.inr h1
    · exact Or.inr (hFl hf)

/-! ## Counting cells -/

theorem countCells_snake (g : Game) (hB : BodyOnGrid g) :
    countCells g CellSnake = g.snakeBody.length := by
  obtain ⟨hnd, hin, hsn, -⟩ := hB
  unfold countCells
  have hinj : Function.Injective
      (fun p : Fin BoardSize × Fin BoardSize => (((p.1 : Int), (p.2 : Int)) : Int × Int)) := by
    intro p q hpq
    exact Prod.ext (coe_inj (congrArg Prod.fst hpq)) (coe_inj (congrArg Prod.snd hpq))
  have himg : (Finset.univ.filter
      fun p : Fin BoardSize × Fin BoardSize => g.cells p.1 p.2 = CellSnake).image
      (fun p : Fin BoardSize × Fin BoardSize => (((p.1 : Int), (p.2 : Int)) : Int × Int))
      = g.snakeBody.toFinset := by
    ext q
    simp only [Finset.mem_image, Finset.mem_filter, Finset.mem_univ, true_and,
      List.mem_toFinset]
    constructor
    · rintro ⟨p, hp, rfl⟩
      exact (hsn p.1 p.2).1 hp
    · intro hq
      obtain ⟨i, j, hi, hj⟩ := exists_fin_of_inBounds (hin q hq)
      exact ⟨(i, j), (hsn i j).2 (by rw [hi, hj]; exact hq), Prod.ext hi hj⟩
  rw [← Finset.card_image_of_injective _ hinj, himg, List.toFinset_card_of_nodup hnd]

theorem countCells_food (g : Game) (hF : FoodOnGrid g) : countCells g CellFood = 1 := by
  obtain ⟨i, j, hi, hj⟩ := exists_fin_of_inBounds hF.1
  unfold countCells
  have : (Finset.univ.filter
      fun p : Fin BoardSize × Fin BoardSize => g.cells p.1 p.2 = CellFood) = {(i, j)} := by
    ext p
    simp only [Finset.mem_filter, Finset.mem_univ, true_and, Finset.mem_singleton]
    rw [hF.2 p.1 p.2]
    constructor
    · intro h
      exact Prod.ext (coe_inj ((congrArg Prod.fst h).trans hi.symm))
        (coe_inj ((congrArg Prod.snd h).trans hj.symm))
    · intro h
      rw [h]
      exact Prod.ext hi hj
  rw [this, Finset.card_singleton]

/-- C12: in the state after `NewGame().Start()` and in every state reached from
it by `Move` and `Tick` calls, for all random draws, the number of SnakeBody
cells equals `Length()`, and exactly one cell holds Food unless every cell of
the grid is SnakeBody. -/
theorem C12_count_invariant (g : Game) (h : Reachable g) :
    (countCells g CellSnake : Int) = Length g ∧
    (¬ Full g → countCells g CellFood = 1) ∧
    (Full g → countCells g CellFood = 0) := by
  obtain ⟨hB, hF⟩ := Reachable_inv g h
  refine ⟨?_, ?_, ?_⟩
  · unfold Length
    rw [countCells_snake g hB]
  · intro hnf
    rcases hF with hf | hf
    · exact countCells_food g hf
    · exact absurd hf hnf
  · intro hfull
    unfold countCells
    rw [Finset.card_eq_zero, Finset.filter_eq_empty_iff]
    intro p _ hp
    rw [hfull p.1 p.2] at hp
    exact absurd hp (by decide)

theorem C12_count_invariant_witness :
    Reachable (Tick (Move (Start NewGame 5 5 0).state Right) 1).state ∧
      (countCells (Tick (Move (Start NewGame 5 5 0).state Right) 1).state CellSnake : Int)
        = Length (Tick (Move (Start NewGame 5 5 0).state Right) 1).state ∧
      (¬ Full (Tick (Move (Start NewGame 5 5 0).state Right) 1).state →
        countCells (Tick (Move (Start NewGame 5 5 0).state Right) 1).state CellFood = 1) :=
  ⟨Reachable.tick 1 (Reachable.move Right (Reachable.start 5 5 0)),
    (C12_count_invariant _
      (Reachable.tick 1 (Reachable.move Right (Reachable.start 5 5 0)))).1,
    (C12_count_invariant _
      (Reachable.tick 1 (Reachable.move Right (Reachable.start 5 5 0)))).2.1⟩

/-! ## Grid consistency as an invariant -/

set_option maxRecDepth 100000 in
/-- C11 as stated fails, in two ways. From `foodLast` the head eats the food on
the last free cell: `Tick` sets win and the food coordinate (9,0) then holds
SnakeBody, not Food. From `dupGame`, whose body lists (5,5) twice, `Tick`
clears the tail cell (5,5) while (5,5) is still a body segment. -/
theorem C11_counterexample :
    GridConsistent foodLast ∧ (Tick foodLast 0).returned = true ∧
      ¬ GridConsistent (Tick foodLast 0).state ∧
      readCell (Tick foodLast 0).state.cells (Tick foodLast 0).state.food.1
        (Tick foodLast 0).state.food.2 = some CellSnake ∧
      GridConsistent dupGame ∧ (Tick dupGame 0).returned = true ∧
      ¬ GridConsistent (Tick dupGame 0).state ∧
      (5, 5) ∈ (Tick dupGame 0).state.snakeBody ∧
      readCell (Tick dupGame 0).state.cells 5 5 = some CellEmpty := by
  decide

/-- C11 (amended): for every state with distinct body segments in which every
body segment's cell is SnakeBody, the food coordinate's cell is Food and every
other cell is Empty, `Tick` returns (for every direction and random draw) a
state with distinct body segments in which the same holds, except when the head
moves onto the food and no Empty cell is left: then `Tick` sets win, every cell
is SnakeBody and every body segment's cell is SnakeBody. The same consistency
holds after `Start` on a fresh game. -/
theorem C11_grid_consistency :
    (∀ (g : Game) (r : Nat), g.snakeBody.Nodup → GridConsistent g →
      ∃ g', Tick g r = .ret g' ∧ g'.snakeBody.Nodup ∧
        (GridConsistent g' ∨
          (((moveSnake g).snakeHeadX, (moveSnake g).snakeHeadY) = g.food ∧
            IsWin g' = true ∧ Full g' ∧
            ∀ p ∈ g'.snakeBody, readCell g'.cells p.1 p.2 = some CellSnake))) ∧
    (∀ rx ry rf : Nat,
      ∃ g', Start NewGame rx ry rf = .ret g' ∧ g'.snakeBody.Nodup ∧ GridConsistent g') := by
  constructor
  · intro g r hnd hc
    obtain ⟨hB, hF⟩ := onGrid_of_gridConsistent g hnd hc
    obtain ⟨g', hT, hB', hFd, -⟩ := Tick_inv g r hB (Or.inl hF)
    refine ⟨g', hT, hB'.1, ?_⟩
    rcases hFd hF with hF' | ⟨hf, hw, hfull⟩
    · exact Or.inl (gridConsistent_of_onGrid g' hB' hF')
    · exact Or.inr ⟨hf, hw, hfull, snakeCells_of_bodyOnGrid g' hB'⟩
  · intro rx ry rf
    obtain ⟨g', hS, hB, hF, -, -⟩ := Start_NewGame_inv rx ry rf
    exact ⟨g', hS, hB.1, gridConsistent_of_onGrid g' hB hF⟩

theorem C11_grid_consistency_witness :
    scenario.snakeBody.Nodup ∧ GridConsistent scenario ∧
      ∃ g', Tick scenario 17 = .ret g' ∧ g'.snakeBody.Nodup ∧
        (GridConsistent g' ∨
          (((moveSnake scenario).snakeHeadX, (moveSnake scenario).snakeHeadY) = scenario.food ∧
            IsWin g' = true ∧ Full g' ∧
            ∀ p ∈ g'.snakeBody, readCell g'.cells p.1 p.2 = some CellSnake)) :=
  ⟨by decide, by decide, C11_grid_consistency.1 scenario 17 (by decide) (by decide)⟩

/-! ## Start postcondition -/

/-- C16: for all random draws, `Start` on a fresh game returns a state whose
head is in bounds, whose body is the head alone (length 1) on a SnakeBody cell,
whose food coordinate is an in-bounds cell other than the head that holds Food,
with the remaining `N*N - 2 = 98` cells Empty, score 0, direction `Undefine`,
and gameOver and win false. -/
theorem C16_start_postcondition (rx ry rf : Nat) :
    ∃ g', Start NewGame rx ry rf = .ret g' ∧
      InBounds g'.snakeHeadX g'.snakeHeadY ∧
      g'.snakeBody = [(g'.snakeHeadX, g'.snakeHeadY)] ∧
      Length g' = 1 ∧
      readCell g'.cells g'.snakeHeadX g'.snakeHeadY = some CellSnake ∧
      InBounds g'.food.1 g'.food.2 ∧
      g'.food ≠ (g'.snakeHeadX, g'.snakeHeadY) ∧
      readCell g'.cells g'.food.1 g'.food.2 = some CellFood ∧
      (∀ i j : Fin BoardSize, ((i : Int), (j : Int)) ≠ (g'.snakeHeadX, g'.snakeHeadY) →
        ((i : Int), (j : Int)) ≠ g'.food → g'.cells i j = CellEmpty) ∧
      countCells g' CellEmpty = BoardSize * BoardSize - 2 ∧
      countCells g' CellEmpty = 98 ∧
      Score g' = 0 ∧ g'.direction = Undefine ∧ IsOver g' = false ∧ IsWin g' = false := by
  obtain ⟨hi, hj, fi, fj, -, -, hne, hS⟩ := Start_NewGame rx ry rf
  have hcell : ∀ a b : Fin BoardSize,
      (if (a : Int) = fi ∧ (b : Int) = fj then CellFood
        else if (a : Int) = hi ∧ (b : Int) = hj then CellSnake else CellEmpty) = CellEmpty ↔
      ¬ ((a : Int) = fi ∧ (b : Int) = fj) ∧ ¬ ((a : Int) = hi ∧ (b : Int) = hj) := by
    intro a b
    by_cases hf : (a : Int) = fi ∧ (b : Int) = fj
    · rw [if_pos hf]
      exact ⟨fun h => absurd h (by decide), fun h => absurd hf h.1⟩
    · rw [if_neg hf]
      by_cases hh : (a : Int) = hi ∧ (b : Int) = hj
      · rw [if_pos hh]
        exact ⟨fun h => absurd h (by decide), fun h => absurd hh h.2⟩
      · rw [if_neg hh]
        exact ⟨fun _ => ⟨hf, hh⟩, fun _ => rfl⟩
  have hcount : (Finset.univ.filter fun p : Fin BoardSize × Fin BoardSize =>
      (if (p.1 : Int) = fi ∧ (p.2 : Int) = fj then CellFood
        else if (p.1 : Int) = hi ∧ (p.2 : Int) = hj then CellSnake else CellEmpty)
        = CellEmpty).card = 98 := by
    have hset : (Finset.univ.filter fun p : Fin BoardSize × Fin BoardSize =>
        (if (p.1 : Int) = fi ∧ (p.2 : Int) = fj then CellFood
          else if (p.1 : Int) = hi ∧ (p.2 : Int) = hj then CellSnake else CellEmpty)
          = CellEmpty) = Finset.univ \ {(fi, fj), (hi, hj)} := by
      ext p
      simp only [Finset.mem_filter, Finset.mem_univ, true_and, Finset.mem_sdiff,
        Finset.mem_insert, Finset.mem_singleton]
      rw [hcell p.1 p.2]
      constructor
      · rintro ⟨h1, h2⟩ (h | h)
        · rw [h] at h1; exact h1 ⟨rfl, rfl⟩
        · rw [h] at h2; exact h2 ⟨rfl, rfl⟩
      · intro h
        refine ⟨fun hh => h (Or.inl ?_), fun hh => h (Or.inr ?_)⟩
        · exact Prod.ext (coe_inj hh.1) (coe_inj hh.2)
        · exact Prod.ext (coe_inj hh.1) (coe_inj hh.2)
    have hpair : ({(fi, fj), (hi, hj)} : Finset (Fin BoardSize × Fin BoardSize)).card = 2 := by
      apply Finset.card_pair
      intro h
      apply hne
      rw [(Prod.mk.inj h).1, (Prod.mk.inj h).2]
      exact ⟨rfl, rfl⟩
    rw [hset, Finset.card_sdiff (Finset.subset_univ _), hpair]
    rfl
  refine ⟨_, hS, inBounds_coe hi hj, rfl, rfl, ?_, inBounds_coe fi fj, ?_, ?_, ?_, hcount,
    hcount, rfl, rfl, rfl, rfl⟩
  · rw [readCell_coe]
    show some (if (hi : Int) = fi ∧ (hj : Int) = fj then CellFood
      else if (hi : Int) = hi ∧ (hj : Int) = hj then CellSnake else CellEmpty) = some CellSnake
    rw [if_neg (fun h => hne ⟨h.1.symm, h.2.symm⟩), if_pos ⟨rfl, rfl⟩]
  · intro h
    exact hne ⟨congrArg Prod.fst h, congrArg Prod.snd h⟩
  · rw [readCell_coe]
    show some (if (fi : Int) = fi ∧ (fj : Int) = fj then CellFood
      else if (fi : Int) = hi ∧ (fj : Int) = hj then CellSnake else CellEmpty) = some CellFood
    rw [if_pos ⟨rfl, rfl⟩]
  · intro i j h1 h2
    exact (hcell i j).2 ⟨fun h => h2 (Prod.ext h.1 h.2), fun h => h1 (Prod.ext h.1 h.2)⟩

/-! ## Score and length -/

theorem removeSnakeTail_ret_fields (g g' : Game) (h : removeSnakeTail g = .ret g') :
    g.snakeBody.length = g'.snakeBody.length + 1 ∧ g'.score = g.score := by
  unfold removeSnakeTail at h
  split at h
  · cases h
  · next t rest hb =>
    split at h
    · cases h
    · cases h
      rw [hb]
      exact ⟨rfl, rfl⟩

/-- C20: in the state after `NewGame().Start()` and in every state reached from
it by `Move` and `Tick` calls in which win is false, the score is
`5 * (Length() - 1)`; and any `Tick` that starts from a state satisfying this
equation and returns without win set yields a state satisfying it. -/
theorem C20_score_tracks_growth :
    (∀ g : Game, Reachable g → IsWin g = false → Score g = 5 * (Length g - 1)) ∧
    (∀ (g : Game) (r : Nat) (g' : Game), Tick g r = .ret g' →
      Score g = 5 * (Length g - 1) → IsWin g' = false → Score g' = 5 * (Length g' - 1)) := by
  have step : ∀ (g : Game) (r : Nat) (g' : Game), Tick g r = .ret g' →
      Score g = 5 * (Length g - 1) → IsWin g' = false → Score g' = 5 * (Length g' - 1) := by
    intro g r g' hT hst hw
    unfold Score Length at hst ⊢
    unfold IsWin at hw
    have hgf := grown_frame g
    have hlen : (grown g).snakeBody.length = g.snakeBody.length + 1 := by
      rw [grown_body]
      simp
    rcases Tick_cases g r with ⟨-, h⟩ | ⟨-, -, h⟩ | ⟨-, -, -, h⟩
    · rw [h] at hT
      cases hT
      exact hst
    · rw [h, moveSnake_frame g] at hT
      cases hT
      exact hst
    · rw [h] at hT
      split at hT
      · cases hT
        cases hw
      · split at hT
        · unfold eatFood at hT
          have hs := spawnFood_fields { grown g with score := (grown g).score + 5 } r
          rw [hT] at hs
          have h1 : g'.snakeBody = (grown g).snakeBody := hs.1
          have h2 : g'.score = (grown g).score + 5 := hs.2.1
          rw [h1, h2, hlen, hgf.2.2.2.1, hst]
          push_cast
          ring
        · obtain ⟨h1, h2⟩ := removeSnakeTail_ret_fields _ _ hT
          rw [h2, hgf.2.2.2.1, hst]
          have : g'.snakeBody.length = g.snakeBody.length := by omega
          rw [this]
  refine ⟨?_, step⟩
  intro g hr
  induction hr with
  | start rx ry rf =>
    intro _
    obtain ⟨g', hS, -, -, hsc, hl⟩ := Start_NewGame_inv rx ry rf
    rw [hS]
    show g'.score = 5 * (((g'.snakeBody.length : Nat) : Int) - 1)
    rw [hsc, hl]
    rfl
  | @move g0 d _ ih =>
    intro hw
    rw [Move_frame g0 d] at hw ⊢
    exact ih hw
  | @tick g0 r hr0 ih =>
    intro hw
    obtain ⟨hB, hF⟩ := Reachable_inv g0 hr0
    obtain ⟨g', hT, -, -, -⟩ := Tick_inv g0 r hB hF
    rw [hT] at hw ⊢
    have hw0 : IsWin g0 = false := by
      cases hwin : g0.win with
      | false => exact hwin
      | true =>
        have h1 : (Tick g0 r).state.win = true := (Tick_flags g0 r).2 hwin
        rw [hT] at h1
        have h2 : g'.win = true := h1
        have hw' : g'.win = false := hw
        rw [hw'] at h2
        cases h2
    exact step g0 r g' hT (ih hw0) hw

theorem C20_score_tracks_growth_witness :
    Reachable (Tick (Move (Start NewGame 5 5 0).state Right) 1).state ∧
      (IsWin (Tick (Move (Start NewGame 5 5 0).state Right) 1).state = false →
        Score (Tick (Move (Start NewGame 5 5 0).state Right) 1).state
          = 5 * (Length (Tick (Move (Start NewGame 5 5 0).state Right) 1).state - 1)) :=
  ⟨Reachable.tick 1 (Reachable.move Right (Reachable.start 5 5 0)),
    C20_score_tracks_growth.1 _ (Reachable.tick 1 (Reachable.move Right (Reachable.start 5 5 0)))⟩

end Snake
